import Mathlib

/-!
Verification of the ascii-animation utility modules of the studio-typo
website: the boids flocking simulation (src/js/ascii/utils/boids.js), the
Jos-Stam stable fluid solver (src/js/ascii/utils/fluid-solver.js), the
Verlet soft-body engine (verlet module), and the simplex-noise module
(src/js/ascii/noise.js).

Numbers are embedded as exact rationals (ℚ); JavaScript numeric literals
such as 0.1 or 1.5 are read as the rationals they denote.  `Math.sqrt` has
no exact rational counterpart, so every operation that calls it takes a
square-root function `sqrtF : ℚ → ℚ` as an explicit parameter; theorems
constrain `sqrtF` only at the points where the code applies it.
-/

namespace StudioTypo

/-! ## Boids (src/js/ascii/utils/boids.js) -/

/-- State of one `Boid` object: position, velocity, acceleration
accumulator, and the per-boid limits. -/
structure Boid where
  x : ℚ
  y : ℚ
  vx : ℚ
  vy : ℚ
  ax : ℚ
  ay : ℚ
  maxSpeed : ℚ
  maxForce : ℚ
  deriving Repr, DecidableEq

/-- The `Boid` constructor.  `rvx`, `rvy` stand for the two `Math.random()`
draws; `maxSpeed`/`maxForce` are `undefined` (none) or an explicit value,
with the ES default-parameter values 4 and 0.1. -/
def mkBoid (x y rvx rvy : ℚ) (maxSpeed maxForce : Option ℚ) : Boid :=
  { x := x, y := y
    vx := (rvx - 0.5) * 2
    vy := (rvy - 0.5) * 2
    ax := 0, ay := 0
    maxSpeed := maxSpeed.getD 4
    maxForce := maxForce.getD 0.1 }

/-- `Boid.applyForce(fx, fy)`. -/
def Boid.applyForce (b : Boid) (fx fy : ℚ) : Boid :=
  { b with ax := b.ax + fx, ay := b.ay + fy }

/-- `Boid.update()`: integrate acceleration into velocity, clamp speed to
`maxSpeed`, integrate velocity into position, reset the accumulator. -/
def Boid.update (sqrtF : ℚ → ℚ) (b : Boid) : Boid :=
  let vx1 := b.vx + b.ax
  let vy1 := b.vy + b.ay
  let speed := sqrtF (vx1 * vx1 + vy1 * vy1)
  let vx2 := if speed > b.maxSpeed then vx1 / speed * b.maxSpeed else vx1
  let vy2 := if speed > b.maxSpeed then vy1 / speed * b.maxSpeed else vy1
  { b with vx := vx2, vy := vy2
           x := b.x + vx2, y := b.y + vy2
           ax := 0, ay := 0 }

/-- `Boid.edges(width, height)`: the two `if` statements per axis run in
sequence, so the second test sees the result of the first. -/
def Boid.edges (b : Boid) (width height : ℚ) : Boid :=
  let x1 := if b.x > width then 0 else b.x
  let x2 := if x1 < 0 then width else x1
  let y1 := if b.y > height then 0 else b.y
  let y2 := if y1 < 0 then height else y1
  { b with x := x2, y := y2 }

end StudioTypo

namespace StudioTypo

/-- C5 helper: a square-root function that is exact at 25, used by the
witness below. -/
def sqrtW : ℚ → ℚ := fun q => if q = 25 then 5 else 0

/-- C5 helper: the concrete boid for the witness, velocity (3,4),
maxSpeed 4. -/
def boidW : Boid :=
  { x := 0, y := 0, vx := 3, vy := 4, ax := 0, ay := 0
    maxSpeed := 4, maxForce := 0.1 }

end StudioTypo

namespace StudioTypo

/-- C5: after `Boid.update()` the speed satisfies vx²+vy² ≤ maxSpeed²
(equivalently sqrt(vx²+vy²) ≤ maxSpeed for nonnegative maxSpeed), and the
acceleration accumulator is exactly zero, so forces never persist into the
next frame.  `w` is the squared pre-clamp speed; the hypotheses say that
`sqrtF` is a genuine square root at that single point. -/
theorem boid_update_speed_clamp (sqrtF : ℚ → ℚ) (b : Boid) (w : ℚ)
    (hw : w = (b.vx + b.ax) * (b.vx + b.ax) + (b.vy + b.ay) * (b.vy + b.ay))
    (hs : sqrtF w * sqrtF w = w)
    (hpos : 0 ≤ sqrtF w)
    (hms : 0 ≤ b.maxSpeed) :
    (Boid.update sqrtF b).vx * (Boid.update sqrtF b).vx
      + (Boid.update sqrtF b).vy * (Boid.update sqrtF b).vy
      ≤ b.maxSpeed * b.maxSpeed
    ∧ (Boid.update sqrtF b).ax = 0 ∧ (Boid.update sqrtF b).ay = 0 := by
  have hwval : (b.vx + b.ax) * (b.vx + b.ax) + (b.vy + b.ay) * (b.vy + b.ay)
      = sqrtF w * sqrtF w := by rw [hs, hw]
  simp only [Boid.update]
  rw [← hw]
  refine ⟨?_, by trivial, by trivial⟩
  split_ifs with hgt
  · have hsne : sqrtF w ≠ 0 := by
      intro h0
      rw [h0] at hgt
      exact absurd hms (not_le.mpr hgt)
    have key : (b.vx + b.ax) / sqrtF w * b.maxSpeed
          * ((b.vx + b.ax) / sqrtF w * b.maxSpeed)
        + (b.vy + b.ay) / sqrtF w * b.maxSpeed
          * ((b.vy + b.ay) / sqrtF w * b.maxSpeed)
        = b.maxSpeed * b.maxSpeed := by
      field_simp
      linear_combination (b.maxSpeed * b.maxSpeed) * hwval
    exact le_of_eq key
  · push_neg at hgt
    calc (b.vx + b.ax) * (b.vx + b.ax) + (b.vy + b.ay) * (b.vy + b.ay)
        = sqrtF w * sqrtF w := hwval
      _ ≤ b.maxSpeed * b.maxSpeed := mul_self_le_mul_self hpos hgt

/-- C5 witness: the clamp theorem instantiated at a concrete boid with
velocity (3,4) and maxSpeed 4. -/
theorem boid_update_speed_clamp_witness :
    (Boid.update sqrtW boidW).vx * (Boid.update sqrtW boidW).vx
      + (Boid.update sqrtW boidW).vy * (Boid.update sqrtW boidW).vy
      ≤ boidW.maxSpeed * boidW.maxSpeed
    ∧ (Boid.update sqrtW boidW).ax = 0 ∧ (Boid.update sqrtW boidW).ay = 0 :=
  boid_update_speed_clamp sqrtW boidW 25 (by norm_num [boidW])
    (by norm_num [sqrtW]) (by norm_num [sqrtW]) (by norm_num [boidW])

/-- C8: after `edges(width, height)` (nonnegative dimensions) the position
lies in the box [0,width] × [0,height]; a boid beyond the right edge is
moved to x = 0, one left of x = 0 is moved to x = width, and likewise
vertically. -/
theorem boid_edges_in_box (b : Boid) (w h : ℚ) (hw : 0 ≤ w) (hh : 0 ≤ h) :
    (0 ≤ (b.edges w h).x ∧ (b.edges w h).x ≤ w
      ∧ 0 ≤ (b.edges w h).y ∧ (b.edges w h).y ≤ h)
    ∧ (b.x > w → (b.edges w h).x = 0)
    ∧ (b.x < 0 → (b.edges w h).x = w)
    ∧ (b.y > h → (b.edges w h).y = 0)
    ∧ (b.y < 0 → (b.edges w h).y = h) := by
  simp only [Boid.edges]
  refine ⟨⟨?_, ?_, ?_, ?_⟩, ?_, ?_, ?_, ?_⟩ <;>
    first
      | (split_ifs <;> linarith)
      | (intro hx; split_ifs <;> linarith)

/-- C8 witness: a boid at (width + 1, −1) with width = height = 4 lands at
x = 0, y = height, inside the box. -/
theorem boid_edges_in_box_witness :
    (0 ≤ ((Boid.mk 5 (-1) 0 0 0 0 4 0.1).edges 4 4).x
      ∧ ((Boid.mk 5 (-1) 0 0 0 0 4 0.1).edges 4 4).x ≤ 4
      ∧ 0 ≤ ((Boid.mk 5 (-1) 0 0 0 0 4 0.1).edges 4 4).y
      ∧ ((Boid.mk 5 (-1) 0 0 0 0 4 0.1).edges 4 4).y ≤ 4)
    ∧ ((Boid.mk 5 (-1) 0 0 0 0 4 0.1).x > 4
        → ((Boid.mk 5 (-1) 0 0 0 0 4 0.1).edges 4 4).x = 0)
    ∧ ((Boid.mk 5 (-1) 0 0 0 0 4 0.1).x < 0
        → ((Boid.mk 5 (-1) 0 0 0 0 4 0.1).edges 4 4).x = 4)
    ∧ ((Boid.mk 5 (-1) 0 0 0 0 4 0.1).y > 4
        → ((Boid.mk 5 (-1) 0 0 0 0 4 0.1).edges 4 4).y = 0)
    ∧ ((Boid.mk 5 (-1) 0 0 0 0 4 0.1).y < 0
        → ((Boid.mk 5 (-1) 0 0 0 0 4 0.1).edges 4 4).y = 4) :=
  boid_edges_in_box (Boid.mk 5 (-1) 0 0 0 0 4 0.1) 4 4 (by decide) (by decide)

end StudioTypo

namespace StudioTypo

/-- Options object passed to the `Flock` constructor; `none` models an
absent (undefined) property.  NaN, the other falsy number, has no rational
counterpart and is out of scope. -/
structure FlockOptions where
  separationWeight : Option ℚ := none
  alignmentWeight : Option ℚ := none
  cohesionWeight : Option ℚ := none
  perceptionRadius : Option ℚ := none
  separationRadius : Option ℚ := none
  maxSpeed : Option ℚ := none
  maxForce : Option ℚ := none
  maxTrailLength : Option ℚ := none
  deriving Repr

/-- JavaScript `a || d` for an optional numeric `a`: an absent value or an
explicit 0 (both falsy) fall back to the default. -/
def jsOr (o : Option ℚ) (d : ℚ) : ℚ :=
  match o with
  | none => d
  | some v => if v = 0 then d else v

/-- State of a `Flock` (trails omitted: they hold rendering data only). -/
structure Flock where
  width : ℚ
  height : ℚ
  boids : List Boid
  separationWeight : ℚ
  alignmentWeight : ℚ
  cohesionWeight : ℚ
  perceptionRadius : ℚ
  separationRadius : ℚ
  maxTrailLength : ℚ

/-- The `Flock` constructor.  `rand i` supplies the four `Math.random()`
draws used for boid `i` (position x, position y, and the two velocity
draws inside the `Boid` constructor). -/
def mkFlock (count : ℕ) (width height : ℚ) (o : FlockOptions)
    (rand : ℕ → ℚ × ℚ × ℚ × ℚ) : Flock :=
  { width := width
    height := height
    separationWeight := jsOr o.separationWeight 1.5
    alignmentWeight := jsOr o.alignmentWeight 1.0
    cohesionWeight := jsOr o.cohesionWeight 1.0
    perceptionRadius := jsOr o.perceptionRadius 50
    separationRadius := jsOr o.separationRadius 25
    boids := (List.range count).map (fun i =>
      let r := rand i
      mkBoid (r.1 * width) (r.2.1 * height) r.2.2.1 r.2.2.2
        o.maxSpeed o.maxForce)
    maxTrailLength := jsOr o.maxTrailLength 5 }

/-- Default used when indexing past the end of the boid list (the code
never does: `separation` is only called with members of `this.boids`). -/
def defaultBoid : Boid :=
  { x := 0, y := 0, vx := 0, vy := 0, ax := 0, ay := 0
    maxSpeed := 4, maxForce := 0.1 }

/-- One iteration of the accumulation loop in `Flock.separation`: `b` is
the boid being steered, `k` its index (the `other !== boid` reference test
becomes an index test), `acc` the running (steerX, steerY, count), and
`io` the indexed other boid. -/
def sepStep (sqrtF : ℚ → ℚ) (sepRadius : ℚ) (b : Boid) (k : ℕ)
    (acc : ℚ × ℚ × ℕ) (io : ℕ × Boid) : ℚ × ℚ × ℕ :=
  let other := io.2
  let dx := b.x - other.x
  let dy := b.y - other.y
  let d := sqrtF (dx * dx + dy * dy)
  if io.1 ≠ k ∧ d < sepRadius ∧ d > 0 then
    (acc.1 + dx / d / d, acc.2.1 + dy / d / d, acc.2.2 + 1)
  else acc

/-- `Flock.separation(boid)` where `boid` is entry `k` of `this.boids`. -/
def Flock.separation (sqrtF : ℚ → ℚ) (fl : Flock) (k : ℕ) : ℚ × ℚ :=
  let b := fl.boids.getD k defaultBoid
  let r := fl.boids.enum.foldl (sepStep sqrtF fl.separationRadius b k) (0, 0, 0)
  if r.2.2 > 0 then
    let sx := r.1 / (r.2.2 : ℚ)
    let sy := r.2.1 / (r.2.2 : ℚ)
    let mag := sqrtF (sx * sx + sy * sy)
    if mag > 0 then
      let s1x := sx / mag * b.maxSpeed - b.vx
      let s1y := sy / mag * b.maxSpeed - b.vy
      let fm := sqrtF (s1x * s1x + s1y * s1y)
      if fm > b.maxForce then
        (s1x / fm * b.maxForce, s1y / fm * b.maxForce)
      else (s1x, s1y)
    else (sx, sy)
  else (r.1, r.2.1)

/-- C10 helper: all eight options explicitly set to 0. -/
def optsZero : FlockOptions :=
  { separationWeight := some 0, alignmentWeight := some 0
    cohesionWeight := some 0, perceptionRadius := some 0
    separationRadius := some 0, maxSpeed := some 0, maxForce := some 0
    maxTrailLength := some 0 }

/-- C10 helper: all options absent. -/
def optsNone : FlockOptions := {}

end StudioTypo

namespace StudioTypo

/-- C10: the `Flock` constructor routes the six numeric options through
the falsy-defaulting `||` operator, so an explicit 0 yields the defaults
1.5, 1.0, 1.0, 50, 25 and 5; `maxSpeed`/`maxForce` instead pass through
ES default parameters of the `Boid` constructor, so an explicit 0 is
honored (every boid gets 0) while an absent value yields 4 and 0.1. -/
theorem flock_zero_options (count : ℕ) (w h : ℚ) (rand : ℕ → ℚ × ℚ × ℚ × ℚ) :
    ((mkFlock count w h optsZero rand).separationWeight = 1.5
      ∧ (mkFlock count w h optsZero rand).alignmentWeight = 1.0
      ∧ (mkFlock count w h optsZero rand).cohesionWeight = 1.0
      ∧ (mkFlock count w h optsZero rand).perceptionRadius = 50
      ∧ (mkFlock count w h optsZero rand).separationRadius = 25
      ∧ (mkFlock count w h optsZero rand).maxTrailLength = 5)
    ∧ ((mkFlock count w h optsZero rand).boids.all
        (fun b => decide (b.maxSpeed = 0 ∧ b.maxForce = 0)) = true)
    ∧ ((mkFlock count w h optsNone rand).boids.all
        (fun b => decide (b.maxSpeed = 4 ∧ b.maxForce = 0.1)) = true) := by
  refine ⟨⟨?_, ?_, ?_, ?_, ?_, ?_⟩, ?_, ?_⟩ <;>
    simp [mkFlock, optsZero, optsNone, jsOr, mkBoid, List.all_eq_true]

end StudioTypo

namespace StudioTypo

/-! ## Verlet physics engine (verlet module of the repository) -/

/-- State of one `Particle`: current and previous position, pin flag,
mass, and the display character. -/
structure Particle where
  x : ℚ
  y : ℚ
  oldX : ℚ
  oldY : ℚ
  pinned : Bool
  mass : ℚ
  char : String
  deriving Repr, DecidableEq

/-- The `Particle` constructor. -/
def mkParticle (x y : ℚ) (pinned : Bool) : Particle :=
  { x := x, y := y, oldX := x, oldY := y, pinned := pinned
    mass := 1, char := "*" }

/-- `Particle.update(friction, gravity)` - Verlet integration.  Pinned
particles return immediately. -/
def Particle.update (p : Particle) (friction gravity : ℚ) : Particle :=
  if p.pinned then p else
  let vx := (p.x - p.oldX) * friction
  let vy := (p.y - p.oldY) * friction
  { p with oldX := p.x, oldY := p.y, x := p.x + vx, y := p.y + vy + gravity }

/-- `Particle.applyForce(fx, fy)`.  Pinned particles return immediately. -/
def Particle.applyForce (p : Particle) (fx fy : ℚ) : Particle :=
  if p.pinned then p else
  { p with x := p.x + fx / p.mass, y := p.y + fy / p.mass }

/-- `Particle.constrain(minX, minY, maxX, maxY, bounce)`: the four `if`
statements run in sequence, each seeing the previous writes; `vx`, `vy`
are computed once at entry. -/
def Particle.constrain (p : Particle) (minX minY maxX maxY bounce : ℚ) :
    Particle :=
  if p.pinned then p else
  let vx := p.x - p.oldX
  let vy := p.y - p.oldY
  let p1 := if p.x < minX then { p with x := minX, oldX := minX + vx * bounce }
            else p
  let p2 := if p1.x > maxX then { p1 with x := maxX, oldX := maxX + vx * bounce }
            else p1
  let p3 := if p2.y < minY then { p2 with y := minY, oldY := minY + vy * bounce }
            else p2
  let p4 := if p3.y > maxY then { p3 with y := maxY, oldY := maxY + vy * bounce }
            else p3
  p4

/-- A `Constraint` holds references to its two particles; here the
particles live in the enclosing system's list and the references become
indices `i1`, `i2`. -/
structure Constraint where
  i1 : ℕ
  i2 : ℕ
  length : ℚ
  stiffness : ℚ
  deriving Repr, DecidableEq

/-- Default for out-of-range particle reads (never reached by the code:
constraints are built from particles of the same system). -/
def defaultParticle : Particle := mkParticle 0 0 false

/-- `Constraint.solve()` acting on the particle list `ps`.  JavaScript
mutates the two referenced particle objects in place; here the second
write reads the list produced by the first, which coincides with the
object semantics also when `i1 = i2`. -/
def solveConstraint (sqrtF : ℚ → ℚ) (ps : List Particle) (c : Constraint) :
    List Particle :=
  let p1 := ps.getD c.i1 defaultParticle
  let p2 := ps.getD c.i2 defaultParticle
  let dx := p2.x - p1.x
  let dy := p2.y - p1.y
  let dist := sqrtF (dx * dx + dy * dy)
  if dist = 0 then ps
  else
    let diff := ((c.length - dist) / dist) * c.stiffness
    let ox := dx * diff * 0.5
    let oy := dy * diff * 0.5
    let ps1 := if p1.pinned then ps
      else ps.set c.i1 { p1 with x := p1.x - ox, y := p1.y - oy }
    let q2 := ps1.getD c.i2 defaultParticle
    if p2.pinned then ps1
    else ps1.set c.i2 { q2 with x := q2.x + ox, y := q2.y + oy }

/-- State of a `VerletSystem`. -/
structure VerletSystem where
  particles : List Particle
  constraints : List Constraint
  gravity : ℚ
  friction : ℚ
  bounce : ℚ
  iterations : ℕ
  bounds : Option (ℚ × ℚ × ℚ × ℚ)

/-- `VerletSystem.applyForce(fx, fy)`. -/
def VerletSystem.applyForce (s : VerletSystem) (fx fy : ℚ) : VerletSystem :=
  { s with particles := s.particles.map (fun p => p.applyForce fx fy) }

/-- `VerletSystem.applyRadialForce(x, y, radius, strength)`. -/
def VerletSystem.applyRadialForce (sqrtF : ℚ → ℚ) (s : VerletSystem)
    (x y radius strength : ℚ) : VerletSystem :=
  { s with particles := s.particles.map (fun p =>
      if p.pinned then p else
      let dx := p.x - x
      let dy := p.y - y
      let dist := sqrtF (dx * dx + dy * dy)
      if dist < radius ∧ dist > 0 then
        let force := (1 - dist / radius) * strength
        p.applyForce (dx / dist * force) (dy / dist * force)
      else p) }

/-- `VerletSystem.step()`: integrate all particles, solve all constraints
`iterations` times, then apply the bounds when set. -/
def VerletSystem.step (sqrtF : ℚ → ℚ) (s : VerletSystem) : VerletSystem :=
  let ps0 := s.particles.map (fun p => p.update s.friction s.gravity)
  let ps1 := (List.range s.iterations).foldl
    (fun ps _ => s.constraints.foldl (solveConstraint sqrtF) ps) ps0
  let ps2 := match s.bounds with
    | none => ps1
    | some b => ps1.map (fun p => p.constrain b.1 b.2.1 b.2.2.1 b.2.2.2 s.bounce)
  { s with particles := ps2 }

/-- `VerletSystem.setBounds(minX, minY, maxX, maxY)`. -/
def VerletSystem.setBounds (s : VerletSystem) (minX minY maxX maxY : ℚ) :
    VerletSystem :=
  { s with bounds := some (minX, minY, maxX, maxY) }

/-- The public mutating operations of a `VerletSystem` an animation frame
may interleave. -/
inductive VerletOp where
  | step : VerletOp
  | applyForce (fx fy : ℚ) : VerletOp
  | applyRadialForce (x y radius strength : ℚ) : VerletOp
  | setBounds (minX minY maxX maxY : ℚ) : VerletOp
  deriving Repr

/-- Run a sequence of operations on a system. -/
def runVerlet (sqrtF : ℚ → ℚ) (s : VerletSystem) : List VerletOp → VerletSystem
  | [] => s
  | op :: rest =>
    let s1 := match op with
      | .step => s.step sqrtF
      | .applyForce fx fy => s.applyForce fx fy
      | .applyRadialForce x y r k => s.applyRadialForce sqrtF x y r k
      | .setBounds a b c d => s.setBounds a b c d
    runVerlet sqrtF s1 rest

end StudioTypo

namespace StudioTypo

theorem getD_set_ne_particle (ps : List Particle) (i k : ℕ) (v : Particle)
    (h : i ≠ k) :
    (ps.set i v).getD k defaultParticle = ps.getD k defaultParticle := by
  simp [List.getD_eq_getElem?_getD, List.getElem?_set_ne h]

theorem getD_map_pinned {f : Particle → Particle}
    (hf : ∀ p, p.pinned = true → f p = p) (ps : List Particle) (k : ℕ)
    (hk : (ps.getD k defaultParticle).pinned = true) :
    (ps.map f).getD k defaultParticle = ps.getD k defaultParticle := by
  cases h : ps[k]? with
  | none => simp [List.getD_eq_getElem?_getD, List.getElem?_map, h]
  | some p =>
    have hp : p.pinned = true := by
      rw [List.getD_eq_getElem?_getD, h] at hk
      exact hk
    simp [List.getD_eq_getElem?_getD, List.getElem?_map, h, hf p hp]

theorem solveConstraint_pinned (sqrtF : ℚ → ℚ) (ps : List Particle)
    (c : Constraint) (k : ℕ)
    (hk : (ps.getD k defaultParticle).pinned = true) :
    (solveConstraint sqrtF ps c).getD k defaultParticle
      = ps.getD k defaultParticle := by
  simp only [solveConstraint]
  split_ifs with hd h1 h2 h3
  · rfl
  · rfl
  · have hne : c.i1 ≠ k := fun he => h2 (by rw [he]; exact hk)
    exact getD_set_ne_particle _ _ _ _ hne
  · have hne : c.i2 ≠ k := fun he => h1 (by rw [he]; exact hk)
    exact getD_set_ne_particle _ _ _ _ hne
  · have hne1 : c.i1 ≠ k := fun he => h3 (by rw [he]; exact hk)
    have hne2 : c.i2 ≠ k := fun he => h1 (by rw [he]; exact hk)
    rw [getD_set_ne_particle _ _ _ _ hne2, getD_set_ne_particle _ _ _ _ hne1]

theorem foldl_solve_pinned (sqrtF : ℚ → ℚ) (cs : List Constraint)
    (ps : List Particle) (k : ℕ)
    (hk : (ps.getD k defaultParticle).pinned = true) :
    (cs.foldl (solveConstraint sqrtF) ps).getD k defaultParticle
      = ps.getD k defaultParticle := by
  induction cs generalizing ps with
  | nil => rfl
  | cons c cs ih =>
    have h1 := solveConstraint_pinned sqrtF ps c k hk
    have hk1 : ((solveConstraint sqrtF ps c).getD k defaultParticle).pinned
        = true := by rw [h1]; exact hk
    rw [List.foldl_cons, ih _ hk1, h1]

theorem step_pinned (sqrtF : ℚ → ℚ) (s : VerletSystem) (k : ℕ)
    (hk : (s.particles.getD k defaultParticle).pinned = true) :
    ((s.step sqrtF).particles.getD k defaultParticle)
      = s.particles.getD k defaultParticle := by
  simp only [VerletSystem.step]
  have h0 : (s.particles.map
        (fun p => p.update s.friction s.gravity)).getD k defaultParticle
      = s.particles.getD k defaultParticle :=
    getD_map_pinned (fun p hp => by simp [Particle.update, hp]) _ _ hk
  have hk0 : ((s.particles.map
        (fun p => p.update s.friction s.gravity)).getD k
        defaultParticle).pinned = true := by rw [h0]; exact hk
  set ps0 := s.particles.map (fun p => p.update s.friction s.gravity) with hps0
  have h1 : ((List.range s.iterations).foldl
        (fun ps _ => s.constraints.foldl (solveConstraint sqrtF) ps)
        ps0).getD k defaultParticle = ps0.getD k defaultParticle := by
    have : ∀ (l : List ℕ) (ps : List Particle),
        (ps.getD k defaultParticle).pinned = true →
        (l.foldl (fun ps _ => s.constraints.foldl (solveConstraint sqrtF) ps)
          ps).getD k defaultParticle = ps.getD k defaultParticle := by
      intro l
      induction l with
      | nil => intro ps _; rfl
      | cons a l ih =>
        intro ps hps
        have hsolve := foldl_solve_pinned sqrtF s.constraints ps k hps
        have hps1 : ((s.constraints.foldl (solveConstraint sqrtF)
            ps).getD k defaultParticle).pinned = true := by
          rw [hsolve]; exact hps
        rw [List.foldl_cons, ih _ hps1, hsolve]
    exact this _ _ hk0
  set ps1 := (List.range s.iterations).foldl
    (fun ps _ => s.constraints.foldl (solveConstraint sqrtF) ps) ps0 with hps1d
  have hk1 : (ps1.getD k defaultParticle).pinned = true := by
    rw [h1]; exact hk0
  cases hb : s.bounds with
  | none => rw [h1, h0]
  | some b =>
    have h2 : (ps1.map (fun p =>
          p.constrain b.1 b.2.1 b.2.2.1 b.2.2.2 s.bounce)).getD k
          defaultParticle = ps1.getD k defaultParticle :=
      getD_map_pinned (fun p hp => by simp [Particle.constrain, hp]) _ _ hk1
    rw [h2, h1, h0]

/-- C6: a particle constructed with pinned = true is never written by
integration, force application (direct or radial), constraint solving or
boundary collision: across any interleaving of the system operations the
whole particle record at its index - in particular its position (x, y) -
is unchanged. -/
theorem verlet_pinned_preserved (sqrtF : ℚ → ℚ) (ops : List VerletOp)
    (s : VerletSystem) (k : ℕ)
    (hpin : (s.particles.getD k defaultParticle).pinned = true) :
    (runVerlet sqrtF s ops).particles.getD k defaultParticle
      = s.particles.getD k defaultParticle := by
  induction ops generalizing s with
  | nil => rfl
  | cons op rest ih =>
    have key : ∀ s1 : VerletSystem,
        s1.particles.getD k defaultParticle = s.particles.getD k defaultParticle →
        (runVerlet sqrtF s1 rest).particles.getD k defaultParticle
          = s.particles.getD k defaultParticle := by
      intro s1 h1
      rw [ih s1 (by rw [h1]; exact hpin), h1]
    cases op with
    | step =>
      exact key (s.step sqrtF) (step_pinned sqrtF s k hpin)
    | applyForce fx fy =>
      refine key (s.applyForce fx fy) ?_
      exact getD_map_pinned (fun p hp => by simp [Particle.applyForce, hp])
        _ _ hpin
    | applyRadialForce x y r st =>
      refine key (s.applyRadialForce sqrtF x y r st) ?_
      exact getD_map_pinned (fun p hp => by simp [hp]) _ _ hpin
    | setBounds a b c d =>
      exact key (s.setBounds a b c d) rfl

/-- C6 witness: a system of one pinned and one free particle joined by a
constraint, run through a force application and two steps: the pinned
particle record is unchanged. -/
theorem verlet_pinned_preserved_witness :
    (runVerlet sqrtW
      { particles := [mkParticle 1 2 true, mkParticle 4 6 false]
        constraints := [Constraint.mk 0 1 5 1]
        gravity := 0.5, friction := 0.99, bounce := 0.8
        iterations := 3, bounds := none }
      [VerletOp.applyForce 3 4, VerletOp.step, VerletOp.setBounds 0 0 9 9,
        VerletOp.step]).particles.getD 0 defaultParticle
      = ({ particles := [mkParticle 1 2 true, mkParticle 4 6 false]
           constraints := [Constraint.mk 0 1 5 1]
           gravity := 0.5, friction := 0.99, bounce := 0.8
           iterations := 3, bounds := none } :
          VerletSystem).particles.getD 0 defaultParticle :=
  verlet_pinned_preserved sqrtW _ _ 0 (by simp [mkParticle])

end StudioTypo

namespace StudioTypo

theorem getD_set_self_particle (ps : List Particle) (i : ℕ) (v : Particle)
    (h : i < ps.length) :
    (ps.set i v).getD i defaultParticle = v := by
  rw [List.getD_eq_getElem?_getD, List.getElem?_set_self']
  simp [List.getElem?_eq_getElem h]

/-- C2 counterexample: constraint between a pinned particle at the origin
and a free particle at (3,4), restLength 1, stiffness 1.  After `solve()`
the pinned endpoint is untouched (as claimed) but the free endpoint ends
at (9/5, 12/5), at squared distance 9 from the pinned one - not at the
rest length 1 that applying all of the correction to it would give: the
free endpoint only ever receives its own half of the correction. -/
theorem constraint_solve_pinned_cex :
    (solveConstraint sqrtW [mkParticle 0 0 true, mkParticle 3 4 false]
        (Constraint.mk 0 1 1 1)).getD 0 defaultParticle
      = mkParticle 0 0 true
    ∧ ((solveConstraint sqrtW [mkParticle 0 0 true, mkParticle 3 4 false]
        (Constraint.mk 0 1 1 1)).getD 1 defaultParticle).x
        * ((solveConstraint sqrtW [mkParticle 0 0 true, mkParticle 3 4 false]
        (Constraint.mk 0 1 1 1)).getD 1 defaultParticle).x
      + ((solveConstraint sqrtW [mkParticle 0 0 true, mkParticle 3 4 false]
        (Constraint.mk 0 1 1 1)).getD 1 defaultParticle).y
        * ((solveConstraint sqrtW [mkParticle 0 0 true, mkParticle 3 4 false]
        (Constraint.mk 0 1 1 1)).getD 1 defaultParticle).y
      = 9
    ∧ ((1 : ℚ) * 1 ≠ 9) := by
  refine ⟨?_, ?_, by norm_num⟩ <;>
    norm_num [solveConstraint, sqrtW, mkParticle, defaultParticle]

/-- C2, amended: `solve()` moves the two endpoints by equal and opposite
half-offsets when both are unpinned (with stiffness 1 the rest length is
then met exactly); a pinned endpoint absorbs none of the correction, but
the unpinned endpoint still receives only its own half-offset - the
pinned endpoint's share is discarded, not transferred. -/
theorem constraint_solve_correction (sqrtF : ℚ → ℚ) (ps : List Particle)
    (c : Constraint) (h12 : c.i1 ≠ c.i2) (p1 p2 : Particle)
    (hp1 : ps.getD c.i1 defaultParticle = p1)
    (hp2 : ps.getD c.i2 defaultParticle = p2)
    (dist : ℚ)
    (hdist : sqrtF ((p2.x - p1.x) * (p2.x - p1.x)
      + (p2.y - p1.y) * (p2.y - p1.y)) = dist)
    (hd0 : dist ≠ 0)
    (h1 : c.i1 < ps.length) (h2 : c.i2 < ps.length) :
    let ox := (p2.x - p1.x) * (((c.length - dist) / dist) * c.stiffness) * 0.5
    let oy := (p2.y - p1.y) * (((c.length - dist) / dist) * c.stiffness) * 0.5
    (p1.pinned = false → p2.pinned = false →
      (solveConstraint sqrtF ps c).getD c.i1 defaultParticle
          = { p1 with x := p1.x - ox, y := p1.y - oy }
        ∧ (solveConstraint sqrtF ps c).getD c.i2 defaultParticle
          = { p2 with x := p2.x + ox, y := p2.y + oy })
    ∧ (p1.pinned = true → p2.pinned = false →
      (solveConstraint sqrtF ps c).getD c.i1 defaultParticle = p1
        ∧ (solveConstraint sqrtF ps c).getD c.i2 defaultParticle
          = { p2 with x := p2.x + ox, y := p2.y + oy })
    ∧ (p1.pinned = false → p2.pinned = true →
      (solveConstraint sqrtF ps c).getD c.i1 defaultParticle
          = { p1 with x := p1.x - ox, y := p1.y - oy }
        ∧ (solveConstraint sqrtF ps c).getD c.i2 defaultParticle = p2)
    ∧ (p1.pinned = false → p2.pinned = false → c.stiffness = 1 →
      dist * dist = (p2.x - p1.x) * (p2.x - p1.x)
        + (p2.y - p1.y) * (p2.y - p1.y) →
      (((solveConstraint sqrtF ps c).getD c.i2 defaultParticle).x
          - ((solveConstraint sqrtF ps c).getD c.i1 defaultParticle).x)
          * (((solveConstraint sqrtF ps c).getD c.i2 defaultParticle).x
          - ((solveConstraint sqrtF ps c).getD c.i1 defaultParticle).x)
        + (((solveConstraint sqrtF ps c).getD c.i2 defaultParticle).y
          - ((solveConstraint sqrtF ps c).getD c.i1 defaultParticle).y)
          * (((solveConstraint sqrtF ps c).getD c.i2 defaultParticle).y
          - ((solveConstraint sqrtF ps c).getD c.i1 defaultParticle).y)
        = c.length * c.length) := by
  intro ox oy
  have hsolve : solveConstraint sqrtF ps c
      = if p1.pinned then
          (if p2.pinned then ps
           else ps.set c.i2 { p2 with x := p2.x + ox, y := p2.y + oy })
        else
          (if p2.pinned then
            ps.set c.i1 { p1 with x := p1.x - ox, y := p1.y - oy }
           else (ps.set c.i1 { p1 with x := p1.x - ox, y := p1.y - oy }).set
             c.i2 { p2 with x := p2.x + ox, y := p2.y + oy }) := by
    simp only [solveConstraint, hp1, hp2, hdist, if_neg hd0]
    have hq2get : ∀ v : Particle,
        (ps.set c.i1 v).getD c.i2 defaultParticle = p2 := fun v => by
      rw [getD_set_ne_particle _ _ _ _ h12, hp2]
    by_cases hq2 : p2.pinned = true <;> by_cases hq1 : p1.pinned = true
    · simp only [if_pos hq2, if_pos hq1]
    · simp only [if_pos hq2, if_neg hq1]
    · simp only [if_neg hq2, if_pos hq1, hp2]
    · simp only [if_neg hq2, if_neg hq1, hq2get]
  have hi1ne : c.i2 ≠ c.i1 := fun he => h12 he.symm
  refine ⟨?_, ?_, ?_, ?_⟩
  · intro hub1 hub2
    rw [hsolve]
    simp only [hub1, hub2, Bool.false_eq_true, if_false]
    constructor
    · rw [getD_set_ne_particle _ _ _ _ hi1ne, getD_set_self_particle _ _ _ h1]
    · rw [getD_set_self_particle]
      simpa using h2
  · intro hub1 hub2
    rw [hsolve]
    simp only [hub1, hub2, Bool.false_eq_true, if_true, if_false]
    constructor
    · rw [getD_set_ne_particle _ _ _ _ hi1ne, hp1]
    · rw [getD_set_self_particle _ _ _ h2]
  · intro hub1 hub2
    rw [hsolve]
    simp only [hub1, hub2, Bool.false_eq_true, if_true, if_false]
    constructor
    · rw [getD_set_self_particle _ _ _ h1]
    · rw [getD_set_ne_particle _ _ _ _ h12, hp2]
  · intro hub1 hub2 hstiff hsq
    rw [hsolve]
    simp only [hub1, hub2, Bool.false_eq_true, if_false]
    rw [getD_set_ne_particle _ _ _ _ hi1ne, getD_set_self_particle _ _ _ h1,
      getD_set_self_particle _ (c.i2) _ (by simpa using h2)]
    show (p2.x + ox - (p1.x - ox)) * (p2.x + ox - (p1.x - ox))
        + (p2.y + oy - (p1.y - oy)) * (p2.y + oy - (p1.y - oy))
      = c.length * c.length
    have hox : ox = (p2.x - p1.x) * (((c.length - dist) / dist) * 1) * 0.5 := by
      rw [← hstiff]
    have hoy : oy = (p2.y - p1.y) * (((c.length - dist) / dist) * 1) * 0.5 := by
      rw [← hstiff]
    rw [hox, hoy]
    field_simp
    ring_nf
    ring_nf at hsq
    nlinarith [hsq, sq_nonneg c.length, sq_nonneg dist]

end StudioTypo

namespace StudioTypo

/-- C2 witness: both endpoints free at (0,0) and (3,4), restLength 1,
stiffness 1: each endpoint moves by the half-offset (6/5, 8/5) in
opposite directions. -/
theorem constraint_solve_correction_witness :
    (solveConstraint sqrtW [mkParticle 0 0 false, mkParticle 3 4 false]
        (Constraint.mk 0 1 1 1)).getD 0 defaultParticle
      = { mkParticle 0 0 false with x := 6/5, y := 8/5 }
    ∧ (solveConstraint sqrtW [mkParticle 0 0 false, mkParticle 3 4 false]
        (Constraint.mk 0 1 1 1)).getD 1 defaultParticle
      = { mkParticle 3 4 false with x := 9/5, y := 12/5 } := by
  have h := constraint_solve_correction sqrtW
    [mkParticle 0 0 false, mkParticle 3 4 false] (Constraint.mk 0 1 1 1)
    (by decide) (mkParticle 0 0 false) (mkParticle 3 4 false) rfl rfl 5
    (by norm_num [sqrtW, mkParticle]) (by norm_num) (by norm_num) (by norm_num)
  constructor
  · rw [(h.1 rfl rfl).1]
    simp only [mkParticle]
    norm_num
  · rw [(h.1 rfl rfl).2]
    simp only [mkParticle]
    norm_num

/-- C7: zero-distance degeneracies contribute nothing and are never
divided by: a constraint whose endpoints coincide is left exactly as it
was by `solve()` (the explicit `dist === 0` early return), and in
`Flock.separation` an other boid at distance 0 from the steered boid
leaves the steering accumulator and neighbour count untouched (the
`d > 0` conjunct of the guard). -/
theorem zero_distance_skipped :
    (∀ (sqrtF : ℚ → ℚ) (ps : List Particle) (c : Constraint),
      sqrtF 0 = 0 →
      (ps.getD c.i1 defaultParticle).x = (ps.getD c.i2 defaultParticle).x →
      (ps.getD c.i1 defaultParticle).y = (ps.getD c.i2 defaultParticle).y →
      solveConstraint sqrtF ps c = ps)
    ∧ (∀ (sqrtF : ℚ → ℚ) (sepRadius : ℚ) (b : Boid) (k i : ℕ)
        (acc : ℚ × ℚ × ℕ) (other : Boid),
      sqrtF 0 = 0 → other.x = b.x → other.y = b.y →
      sepStep sqrtF sepRadius b k acc (i, other) = acc) := by
  constructor
  · intro sqrtF ps c h0 hx hy
    have hdx : (ps.getD c.i2 defaultParticle).x
        - (ps.getD c.i1 defaultParticle).x = 0 := by rw [hx]; ring
    have hdy : (ps.getD c.i2 defaultParticle).y
        - (ps.getD c.i1 defaultParticle).y = 0 := by rw [hy]; ring
    simp only [solveConstraint, hdx, hdy]
    simp [h0]
  · intro sqrtF sepRadius b k i acc other h0 hx hy
    have hdx : b.x - other.x = 0 := by rw [hx]; ring
    have hdy : b.y - other.y = 0 := by rw [hy]; ring
    simp only [sepStep, hdx, hdy]
    simp [h0]

/-- C7 witness: a constraint between two coincident particles is a no-op,
and a coincident other boid leaves a separation accumulator (3, 7, 2)
unchanged. -/
theorem zero_distance_skipped_witness :
    solveConstraint sqrtW [mkParticle 1 1 false, mkParticle 1 1 false]
        (Constraint.mk 0 1 2 1)
      = [mkParticle 1 1 false, mkParticle 1 1 false]
    ∧ sepStep sqrtW 25 boidW 0 ((3 : ℚ), (7 : ℚ), (2 : ℕ)) (1, boidW)
      = ((3 : ℚ), (7 : ℚ), (2 : ℕ)) := by
  constructor
  · exact zero_distance_skipped.1 sqrtW _ _ (by norm_num [sqrtW]) rfl rfl
  · exact zero_distance_skipped.2 sqrtW 25 boidW 0 1 (3, 7, 2) boidW
      (by norm_num [sqrtW]) rfl rfl

end StudioTypo

namespace StudioTypo

/-! ## Stable fluid solver (src/js/ascii/utils/fluid-solver.js)

A `Float32Array` of size N*N indexed through `idx(x, y)` (which clamps
both coordinates into [0, N-1]) is embedded as a total function
`ℕ → ℕ → ℚ` read and written at clamped coordinates.  On natural-number
coordinates `Math.max(0, _)` is the identity, so only the upper clamp
remains; `advect` and `addDensity` produce possibly-negative (integer)
coordinates and use the ℤ-clamp. -/

/-- A two-dimensional field (one solver array). -/
def Field : Type := ℕ → ℕ → ℚ

/-- Coordinate clamp of `idx` on ℕ coordinates. -/
def idxc (N i : ℕ) : ℕ := min (N - 1) i

/-- Coordinate clamp of `idx` on ℤ coordinates. -/
def idxz (N : ℕ) (i : ℤ) : ℕ := (max 0 (min ((N : ℤ) - 1) i)).toNat

/-- Read a field through `idx`. -/
def rdF (N : ℕ) (f : Field) (i j : ℕ) : ℚ := f (idxc N i) (idxc N j)

/-- Read a field through `idx` at ℤ coordinates. -/
def rdZ (N : ℕ) (f : Field) (i j : ℤ) : ℚ := f (idxz N i) (idxz N j)

/-- Write one cell of a field through `idx`. -/
def wrF (N : ℕ) (f : Field) (i j : ℕ) (v : ℚ) : Field :=
  fun a b => if a = idxc N i ∧ b = idxc N j then v else f a b

/-- The row loop of `setBnd(b, x)` (`setBnd` below composes the three
loops: rows, then columns reading the field the row loop produced, then
the four corners reading the edges just written).  Within each loop no
written cell is read back, so each loop is a simultaneous update; writes
land at in-range coordinates, so they are written in plain form. -/
def setBndEdgesH (b N : ℕ) (x : Field) : Field := fun i j =>
  if 1 ≤ i ∧ i ≤ N - 2 ∧ j = 0 then
    (if b = 2 then -(rdF N x i 1) else rdF N x i 1)
  else if 1 ≤ i ∧ i ≤ N - 2 ∧ j = N - 1 then
    (if b = 2 then -(rdF N x i (N - 2)) else rdF N x i (N - 2))
  else x i j

/-- The column loop of `setBnd`. -/
def setBndEdgesV (b N : ℕ) (x : Field) : Field := fun i j =>
  if i = 0 ∧ 1 ≤ j ∧ j ≤ N - 2 then
    (if b = 1 then -(rdF N x 1 j) else rdF N x 1 j)
  else if i = N - 1 ∧ 1 ≤ j ∧ j ≤ N - 2 then
    (if b = 1 then -(rdF N x (N - 2) j) else rdF N x (N - 2) j)
  else x i j

/-- The four corner writes of `setBnd`. -/
def setBndCorners (N : ℕ) (x : Field) : Field := fun i j =>
  if i = 0 ∧ j = 0 then
    0.5 * (rdF N x 1 0 + rdF N x 0 1)
  else if i = 0 ∧ j = N - 1 then
    0.5 * (rdF N x 1 (N - 1) + rdF N x 0 (N - 2))
  else if i = N - 1 ∧ j = 0 then
    0.5 * (rdF N x (N - 2) 0 + rdF N x (N - 1) 1)
  else if i = N - 1 ∧ j = N - 1 then
    0.5 * (rdF N x (N - 2) (N - 1) + rdF N x (N - 1) (N - 2))
  else x i j

def setBnd (b N : ℕ) (x : Field) : Field :=
  setBndCorners N (setBndEdgesV b N (setBndEdgesH b N x))

/-- The interior cells (i, j), i, j ∈ [1, N-2], in the j-outer/i-inner
order of the solver's nested loops. -/
def interiorCells (N : ℕ) : List (ℕ × ℕ) :=
  ((List.range (N - 2)).map (· + 1)).flatMap
    (fun j => ((List.range (N - 2)).map (· + 1)).map (fun i => (i, j)))

/-- One Gauss-Seidel sweep of `linSolve`: cells are updated in loop order,
each update reading the partially-updated field. -/
def gsSweep (N : ℕ) (x0 : Field) (a cRecip : ℚ) (f : Field) : Field :=
  (interiorCells N).foldl
    (fun g ij =>
      wrF N g ij.1 ij.2
        ((rdF N x0 ij.1 ij.2
          + a * (rdF N g (ij.1 + 1) ij.2 + rdF N g (ij.1 - 1) ij.2
            + rdF N g ij.1 (ij.2 + 1) + rdF N g ij.1 (ij.2 - 1))) * cRecip))
    f

/-- `linSolve(b, x, x0, a, c)`: four sweeps, each followed by a boundary
pass; the array `x` enters with its previous contents as initial guess. -/
def linSolve (N b : ℕ) (x x0 : Field) (a c : ℚ) : Field :=
  let cRecip := 1 / c
  (List.range 4).foldl (fun f _ => setBnd b N (gsSweep N x0 a cRecip f)) x

/-- `diffuse(b, x, x0, diff)`. -/
def diffuse (N b : ℕ) (x x0 : Field) (diffc dt : ℚ) : Field :=
  let a := dt * diffc * (((N : ℚ) - 2) * ((N : ℚ) - 2))
  linSolve N b x x0 a (1 + 6 * a)

/-- `project(vx, vy, p, div)`; returns the four arrays in argument order
(`vx`, `vy` hold the projected velocity, `p`, `div` the scratch data the
call leaves behind). -/
def project (N : ℕ) (vx vy p div : Field) : Field × Field × Field × Field :=
  let h := 1 / (N : ℚ)
  let dv := (interiorCells N).foldl
    (fun g ij => wrF N g ij.1 ij.2
      (-0.5 * h * (rdF N vx (ij.1 + 1) ij.2 - rdF N vx (ij.1 - 1) ij.2
        + rdF N vy ij.1 (ij.2 + 1) - rdF N vy ij.1 (ij.2 - 1)))) div
  let p1 := (interiorCells N).foldl (fun g ij => wrF N g ij.1 ij.2 0) p
  let dv2 := setBnd 0 N dv
  let p2 := setBnd 0 N p1
  let p3 := linSolve N 0 p2 dv2 1 6
  let vx1 := (interiorCells N).foldl
    (fun g ij => wrF N g ij.1 ij.2
      (rdF N g ij.1 ij.2
        - 0.5 * (rdF N p3 (ij.1 + 1) ij.2 - rdF N p3 (ij.1 - 1) ij.2)
          * (N : ℚ))) vx
  let vy1 := (interiorCells N).foldl
    (fun g ij => wrF N g ij.1 ij.2
      (rdF N g ij.1 ij.2
        - 0.5 * (rdF N p3 ij.1 (ij.2 + 1) - rdF N p3 ij.1 (ij.2 - 1))
          * (N : ℚ))) vy
  (setBnd 1 N vx1, setBnd 2 N vy1, p3, dv2)

/-- `advect(b, d, d0, vx, vy)`: semi-Lagrangian advection with the traced
point clamped to [0.5, N-1.5] and bilinear interpolation from `d0`. -/
def advect (N b : ℕ) (d d0 vx vy : Field) (dt : ℚ) : Field :=
  let dt0 := dt * ((N : ℚ) - 2)
  let d1 := (interiorCells N).foldl
    (fun g ij =>
      let x := (ij.1 : ℚ) - dt0 * rdF N vx ij.1 ij.2
      let y := (ij.2 : ℚ) - dt0 * rdF N vy ij.1 ij.2
      let xc := max 0.5 (min ((N : ℚ) - 1.5) x)
      let yc := max 0.5 (min ((N : ℚ) - 1.5) y)
      let i0 : ℤ := ⌊xc⌋
      let j0 : ℤ := ⌊yc⌋
      let s1 := xc - (i0 : ℚ)
      let s0 := 1 - s1
      let t1 := yc - (j0 : ℚ)
      let t0 := 1 - t1
      wrF N g ij.1 ij.2
        (s0 * (t0 * rdZ N d0 i0 j0 + t1 * rdZ N d0 i0 (j0 + 1))
          + s1 * (t0 * rdZ N d0 (i0 + 1) j0 + t1 * rdZ N d0 (i0 + 1) (j0 + 1))))
    d
  setBnd b N d1

/-- State of a `FluidSolver`. -/
structure FluidSolver where
  size : ℕ
  dt : ℚ
  diff : ℚ
  visc : ℚ
  density : Field
  densityPrev : Field
  vx : Field
  vy : Field
  vxPrev : Field
  vyPrev : Field

/-- The `FluidSolver` constructor (all six arrays zero-filled). -/
def mkFluidSolver (size : ℕ) (diffusion viscosity : ℚ) : FluidSolver :=
  { size := size, dt := 0.2, diff := diffusion, visc := viscosity
    density := fun _ _ => 0, densityPrev := fun _ _ => 0
    vx := fun _ _ => 0, vy := fun _ _ => 0
    vxPrev := fun _ _ => 0, vyPrev := fun _ _ => 0 }

/-- `addDensity(x, y, amount)`: the cell at the floored, clamped position
is incremented (for size ≥ 1 the flat-index bound check always passes;
for size = 0 it fails and nothing happens). -/
def FluidSolver.addDensity (s : FluidSolver) (x y amount : ℚ) : FluidSolver :=
  if s.size = 0 then s else
  let i := idxz s.size ⌊x⌋
  let j := idxz s.size ⌊y⌋
  { s with density := fun a b =>
      if a = i ∧ b = j then s.density i j + amount else s.density a b }

/-- `addVelocity(x, y, amountX, amountY)`. -/
def FluidSolver.addVelocity (s : FluidSolver) (x y amountX amountY : ℚ) :
    FluidSolver :=
  if s.size = 0 then s else
  let i := idxz s.size ⌊x⌋
  let j := idxz s.size ⌊y⌋
  { s with
    vx := fun a b =>
      if a = i ∧ b = j then s.vx i j + amountX else s.vx a b
    vy := fun a b =>
      if a = i ∧ b = j then s.vy i j + amountY else s.vy a b }

/-- `step()`: the full velocity step (diffuse both components, project,
self-advect both components, project) followed by the density step
(diffuse, then advect along the projected velocity), with the `prev`
arrays receiving the intermediate data exactly as the in-place code
leaves them. -/
def FluidSolver.step (s : FluidSolver) : FluidSolver :=
  let N := s.size
  let vxP1 := diffuse N 1 s.vxPrev s.vx s.visc s.dt
  let vyP1 := diffuse N 2 s.vyPrev s.vy s.visc s.dt
  let pr1 := project N vxP1 vyP1 s.vx s.vy
  let vx1 := advect N 1 pr1.2.2.1 pr1.1 pr1.1 pr1.2.1 s.dt
  let vy1 := advect N 2 pr1.2.2.2 pr1.2.1 pr1.1 pr1.2.1 s.dt
  let pr2 := project N vx1 vy1 pr1.1 pr1.2.1
  let dP1 := diffuse N 0 s.densityPrev s.density s.diff s.dt
  let d1 := advect N 0 s.density dP1 pr2.1 pr2.2.1 s.dt
  { s with density := d1, densityPrev := dP1
           vx := pr2.1, vy := pr2.2.1
           vxPrev := pr2.2.2.1, vyPrev := pr2.2.2.2 }

/-- The operations C4 interleaves. -/
inductive FluidOp where
  | addDensity (x y amount : ℚ) : FluidOp
  | step : FluidOp

/-- Run a sequence of fluid operations. -/
def runFluid (s : FluidSolver) : List FluidOp → FluidSolver
  | [] => s
  | op :: rest =>
    let s1 := match op with
      | .addDensity x y amount => s.addDensity x y amount
      | .step => s.step
    runFluid s1 rest

end StudioTypo

namespace StudioTypo

theorem rdF_in_range (N : ℕ) (f : Field) (i j : ℕ) (hi : i ≤ N - 1)
    (hj : j ≤ N - 1) : rdF N f i j = f i j := by
  unfold rdF idxc
  rw [min_eq_right hi, min_eq_right hj]

theorem setBndEdgesH_off (b N : ℕ) (x : Field) (i j : ℕ)
    (h : (j ≠ 0 ∧ j ≠ N - 1) ∨ i < 1 ∨ N - 2 < i) :
    setBndEdgesH b N x i j = x i j := by
  simp only [setBndEdgesH]
  rw [if_neg (by omega), if_neg (by omega)]

theorem setBndEdgesH_top (b N : ℕ) (x : Field) (i : ℕ) (hN : 3 ≤ N)
    (h1 : 1 ≤ i) (h2 : i ≤ N - 2) :
    setBndEdgesH b N x i 0 = (if b = 2 then -(x i 1) else x i 1) := by
  simp only [setBndEdgesH]
  rw [if_pos (by and_intros <;> trivial), rdF_in_range N x i 1 (by omega) (by omega)]

theorem setBndEdgesH_bot (b N : ℕ) (x : Field) (i : ℕ) (hN : 3 ≤ N)
    (h1 : 1 ≤ i) (h2 : i ≤ N - 2) :
    setBndEdgesH b N x i (N - 1)
      = (if b = 2 then -(x i (N - 2)) else x i (N - 2)) := by
  simp only [setBndEdgesH]
  rw [if_neg (by omega), if_pos (by and_intros <;> trivial),
    rdF_in_range N x i (N - 2) (by omega) (by omega)]

theorem setBndEdgesV_off (b N : ℕ) (x : Field) (i j : ℕ)
    (h : (i ≠ 0 ∧ i ≠ N - 1) ∨ j < 1 ∨ N - 2 < j) :
    setBndEdgesV b N x i j = x i j := by
  simp only [setBndEdgesV]
  rw [if_neg (by omega), if_neg (by omega)]

theorem setBndEdgesV_left (b N : ℕ) (x : Field) (j : ℕ) (hN : 3 ≤ N)
    (h1 : 1 ≤ j) (h2 : j ≤ N - 2) :
    setBndEdgesV b N x 0 j = (if b = 1 then -(x 1 j) else x 1 j) := by
  simp only [setBndEdgesV]
  rw [if_pos (by and_intros <;> trivial), rdF_in_range N x 1 j (by omega) (by omega)]

theorem setBndEdgesV_right (b N : ℕ) (x : Field) (j : ℕ) (hN : 3 ≤ N)
    (h1 : 1 ≤ j) (h2 : j ≤ N - 2) :
    setBndEdgesV b N x (N - 1) j
      = (if b = 1 then -(x (N - 2) j) else x (N - 2) j) := by
  simp only [setBndEdgesV]
  rw [if_neg (by omega), if_pos (by and_intros <;> trivial),
    rdF_in_range N x (N - 2) j (by omega) (by omega)]

theorem setBndCorners_off (N : ℕ) (x : Field) (i j : ℕ)
    (h : (i ≠ 0 ∧ i ≠ N - 1) ∨ (j ≠ 0 ∧ j ≠ N - 1)) :
    setBndCorners N x i j = x i j := by
  simp only [setBndCorners]
  rw [if_neg (by omega), if_neg (by omega), if_neg (by omega),
    if_neg (by omega)]

theorem setBndCorners_at00 (N : ℕ) (x : Field) (hN : 3 ≤ N) :
    setBndCorners N x 0 0 = 0.5 * (x 1 0 + x 0 1) := by
  simp only [setBndCorners]
  rw [if_pos (by and_intros <;> trivial), rdF_in_range N x 1 0 (by omega) (by omega),
    rdF_in_range N x 0 1 (by omega) (by omega)]

theorem setBndCorners_at0N (N : ℕ) (x : Field) (hN : 3 ≤ N) :
    setBndCorners N x 0 (N - 1) = 0.5 * (x 1 (N - 1) + x 0 (N - 2)) := by
  simp only [setBndCorners]
  rw [if_neg (by omega), if_pos (by and_intros <;> trivial),
    rdF_in_range N x 1 (N - 1) (by omega) (by omega),
    rdF_in_range N x 0 (N - 2) (by omega) (by omega)]

theorem setBndCorners_atN0 (N : ℕ) (x : Field) (hN : 3 ≤ N) :
    setBndCorners N x (N - 1) 0 = 0.5 * (x (N - 2) 0 + x (N - 1) 1) := by
  simp only [setBndCorners]
  rw [if_neg (by omega), if_neg (by omega), if_pos (by and_intros <;> trivial),
    rdF_in_range N x (N - 2) 0 (by omega) (by omega),
    rdF_in_range N x (N - 1) 1 (by omega) (by omega)]

theorem setBndCorners_atNN (N : ℕ) (x : Field) (hN : 3 ≤ N) :
    setBndCorners N x (N - 1) (N - 1)
      = 0.5 * (x (N - 2) (N - 1) + x (N - 1) (N - 2)) := by
  simp only [setBndCorners]
  rw [if_neg (by omega), if_neg (by omega), if_neg (by omega),
    if_pos (by and_intros <;> trivial),
    rdF_in_range N x (N - 2) (N - 1) (by omega) (by omega),
    rdF_in_range N x (N - 1) (N - 2) (by omega) (by omega)]

/-- C1: after `setBnd(b, x)` on an N × N grid, N ≥ 3: every top edge cell
(i, 0) mirrors the interior neighbour (i, 1), negated exactly when b = 2,
and likewise the bottom edge from (i, N-2); every left edge cell (0, j)
mirrors (1, j), negated exactly when b = 1, and likewise the right edge
from (N-2, j); interior cells are untouched (so b = 0 negates nothing and
the mirrored neighbour values are the pre-call ones); each corner is the
average of its two adjacent edge cells of the resulting field. -/
theorem setBnd_boundary (b N : ℕ) (x : Field) (hN : 3 ≤ N) :
    (∀ i, 1 ≤ i → i ≤ N - 2 →
      setBnd b N x i 0 = (if b = 2 then -(x i 1) else x i 1)
      ∧ setBnd b N x i (N - 1)
        = (if b = 2 then -(x i (N - 2)) else x i (N - 2)))
    ∧ (∀ j, 1 ≤ j → j ≤ N - 2 →
      setBnd b N x 0 j = (if b = 1 then -(x 1 j) else x 1 j)
      ∧ setBnd b N x (N - 1) j
        = (if b = 1 then -(x (N - 2) j) else x (N - 2) j))
    ∧ (∀ i j, 1 ≤ i → i ≤ N - 2 → 1 ≤ j → j ≤ N - 2 →
      setBnd b N x i j = x i j)
    ∧ (setBnd b N x 0 0 = 0.5 * (setBnd b N x 1 0 + setBnd b N x 0 1)
      ∧ setBnd b N x 0 (N - 1)
        = 0.5 * (setBnd b N x 1 (N - 1) + setBnd b N x 0 (N - 2))
      ∧ setBnd b N x (N - 1) 0
        = 0.5 * (setBnd b N x (N - 2) 0 + setBnd b N x (N - 1) 1)
      ∧ setBnd b N x (N - 1) (N - 1)
        = 0.5 * (setBnd b N x (N - 2) (N - 1)
          + setBnd b N x (N - 1) (N - 2))) := by
  unfold setBnd
  refine ⟨?_, ?_, ?_, ?_, ?_, ?_, ?_⟩
  · intro i h1 h2
    constructor
    · rw [setBndCorners_off N _ i 0 (Or.inl ⟨by omega, by omega⟩),
        setBndEdgesV_off b N _ i 0 (Or.inr (Or.inl (by omega))),
        setBndEdgesH_top b N x i hN h1 h2]
    · rw [setBndCorners_off N _ i (N - 1) (Or.inl ⟨by omega, by omega⟩),
        setBndEdgesV_off b N _ i (N - 1) (Or.inr (Or.inr (by omega))),
        setBndEdgesH_bot b N x i hN h1 h2]
  · intro j h1 h2
    constructor
    · rw [setBndCorners_off N _ 0 j (Or.inr ⟨by omega, by omega⟩),
        setBndEdgesV_left b N _ j hN h1 h2,
        setBndEdgesH_off b N x 1 j (Or.inl ⟨by omega, by omega⟩)]
    · rw [setBndCorners_off N _ (N - 1) j (Or.inr ⟨by omega, by omega⟩),
        setBndEdgesV_right b N _ j hN h1 h2,
        setBndEdgesH_off b N x (N - 2) j (Or.inl ⟨by omega, by omega⟩)]
  · intro i j h1 h2 h3 h4
    rw [setBndCorners_off N _ i j (Or.inl ⟨by omega, by omega⟩),
      setBndEdgesV_off b N _ i j (Or.inl ⟨by omega, by omega⟩),
      setBndEdgesH_off b N x i j (Or.inl ⟨by omega, by omega⟩)]
  · rw [setBndCorners_at00 N _ hN,
      setBndCorners_off N _ 1 0 (Or.inl ⟨by omega, by omega⟩),
      setBndCorners_off N _ 0 1 (Or.inr ⟨by omega, by omega⟩)]
  · rw [setBndCorners_at0N N _ hN,
      setBndCorners_off N _ 1 (N - 1) (Or.inl ⟨by omega, by omega⟩),
      setBndCorners_off N _ 0 (N - 2) (Or.inr ⟨by omega, by omega⟩)]
  · rw [setBndCorners_atN0 N _ hN,
      setBndCorners_off N _ (N - 2) 0 (Or.inl ⟨by omega, by omega⟩),
      setBndCorners_off N _ (N - 1) 1 (Or.inr ⟨by omega, by omega⟩)]
  · rw [setBndCorners_atNN N _ hN,
      setBndCorners_off N _ (N - 2) (N - 1) (Or.inl ⟨by omega, by omega⟩),
      setBndCorners_off N _ (N - 1) (N - 2) (Or.inr ⟨by omega, by omega⟩)]

/-- Concrete field for the C1 witness. -/
def fieldW : Field := fun i j => (i : ℚ) + 2 * (j : ℚ) + 1

/-- C1 witness: the boundary theorem applied on a 3 × 3 grid: b = 2
negates the top edge mirror, b = 1 negates the left edge mirror, b = 0
copies, and the corner (0,0) averages its two neighbours. -/
theorem setBnd_boundary_witness :
    setBnd 2 3 fieldW 1 0 = -(fieldW 1 1)
    ∧ setBnd 1 3 fieldW 0 1 = -(fieldW 1 1)
    ∧ setBnd 0 3 fieldW 1 0 = fieldW 1 1
    ∧ setBnd 2 3 fieldW 0 0
      = 0.5 * (setBnd 2 3 fieldW 1 0 + setBnd 2 3 fieldW 0 1) := by
  refine ⟨?_, ?_, ?_, ?_⟩
  · have h := ((setBnd_boundary 2 3 fieldW (by norm_num)).1 1 (by norm_num)
      (by norm_num)).1
    simpa using h
  · have h := ((setBnd_boundary 1 3 fieldW (by norm_num)).2.1 1 (by norm_num)
      (by norm_num)).1
    simpa using h
  · have h := ((setBnd_boundary 0 3 fieldW (by norm_num)).1 1 (by norm_num)
      (by norm_num)).1
    simpa using h
  · exact (setBnd_boundary 2 3 fieldW (by norm_num)).2.2.2.1

end StudioTypo

namespace StudioTypo

/-- The spec's description of `step()`, written out as its own pipeline:
diffuse x-velocity (b = 1), diffuse y-velocity (b = 2), project, advect
x-velocity (b = 1), advect y-velocity (b = 2), project, diffuse density
(b = 0), advect density along the projected velocity (b = 0).  A second,
spec-side definition to compare with `FluidSolver.step`. -/
def fluidStepSpec (s : FluidSolver) : FluidSolver :=
  let N := s.size
  let dvx := diffuse N 1 s.vxPrev s.vx s.visc s.dt
  let dvy := diffuse N 2 s.vyPrev s.vy s.visc s.dt
  let proj1 := project N dvx dvy s.vx s.vy
  let avx := advect N 1 proj1.2.2.1 proj1.1 proj1.1 proj1.2.1 s.dt
  let avy := advect N 2 proj1.2.2.2 proj1.2.1 proj1.1 proj1.2.1 s.dt
  let proj2 := project N avx avy proj1.1 proj1.2.1
  let dd := diffuse N 0 s.densityPrev s.density s.diff s.dt
  let ad := advect N 0 s.density dd proj2.1 proj2.2.1 s.dt
  { s with density := ad, densityPrev := dd
           vx := proj2.1, vy := proj2.2.1
           vxPrev := proj2.2.2.1, vyPrev := proj2.2.2.2 }

theorem foldl_const_iterate {α : Type} (g : α → α) (x : α) (n : ℕ) :
    (List.range n).foldl (fun f _ => g f) x = g^[n] x := by
  induction n with
  | zero => rfl
  | succ n ih =>
    rw [List.range_succ, List.foldl_append, List.foldl_cons, List.foldl_nil,
      ih, Function.iterate_succ_apply']

/-- C9: `step()` performs exactly the claimed pipeline, in order (the
code's sequence of in-place calls equals the spec-side pipeline
`fluidStepSpec`), and every `linSolve` call is exactly four Gauss-Seidel
sweeps, each immediately followed by a `setBnd` boundary pass. -/
theorem fluid_step_order :
    (∀ s : FluidSolver, s.step = fluidStepSpec s)
    ∧ (∀ (N b : ℕ) (x x0 : Field) (a c : ℚ),
      linSolve N b x x0 a c
        = (fun f => setBnd b N (gsSweep N x0 a (1 / c) f))^[4] x) := by
  constructor
  · intro s
    rfl
  · intro N b x x0 a c
    simp only [linSolve]
    exact foldl_const_iterate (fun f => setBnd b N (gsSweep N x0 a (1 / c) f))
      x 4

end StudioTypo

namespace StudioTypo

/-! ## Simplex noise (src/js/ascii/noise.js)

The module state is the pair of 512-entry tables `perm` and `gradP`.
`seed(value)` is modelled for integer seeds (for which the JavaScript
float arithmetic of the linear-congruential shuffle is exact).  The
skew constants F2 and G2 are fixed dyadic rationals computed once at
module load; `noise2D` takes them as parameters. -/

/-- The twelve 2D/3D gradient vectors. -/
def grad3 : List (ℚ × ℚ × ℚ) :=
  [(1, 1, 0), (-1, 1, 0), (1, -1, 0), (-1, -1, 0),
   (1, 0, 1), (-1, 0, 1), (1, 0, -1), (-1, 0, -1),
   (0, 1, 1), (0, -1, 1), (0, 1, -1), (0, -1, -1)]

/-- The Fisher-Yates-style shuffle of `seed`: start from the identity
list 0..255 and, for i = 255 down to 1, advance the linear-congruential
state `n = (n * 16807) % 2147483647` and swap entries i and n % (i+1). -/
def permBase (s : ℕ) : List ℕ :=
  (((List.range 255).map (fun k => 255 - k)).foldl
    (fun st i =>
      let n := (st.1 * 16807) % 2147483647
      let j := n % (i + 1)
      let pi := st.2.getD i 0
      let pj := st.2.getD j 0
      (n, (st.2.set i pj).set j pi))
    (s, List.range 256)).2

/-- The module state: the two 512-entry tables. -/
structure NoiseState where
  perm : List ℕ
  gradP : List (ℚ × ℚ × ℚ)

/-- `seed(value)`: regenerate `p`, then overwrite all 512 entries of both
tables; `perm[i] = p[i & 255]` and `gradP[i] = grad3[perm[i] % 12]`
(the `gradP` write reads the `perm` value just written, i.e. `p[i & 255]`). -/
def noiseSeed (s : ℕ) (st : NoiseState) : NoiseState :=
  let p := permBase s
  { perm := (List.range 512).foldl
      (fun l i => l.set i (p.getD (i % 256) 0)) st.perm
    gradP := (List.range 512).foldl
      (fun l i => l.set i (grad3.getD ((p.getD (i % 256) 0) % 12) (0, 0, 0)))
      st.gradP }

/-- JavaScript `i & 255` on a (possibly negative) integer. -/
def jsAnd255 (i : ℤ) : ℕ := (i % 256).toNat

/-- `noise2D(x, y)` over the current tables, with the module constants
F2, G2 as parameters. -/
def noise2D (st : NoiseState) (F2 G2 x y : ℚ) : ℚ :=
  let s := (x + y) * F2
  let i : ℤ := ⌊x + s⌋
  let j : ℤ := ⌊y + s⌋
  let t := ((i + j : ℤ) : ℚ) * G2
  let x0 := x - ((i : ℚ) - t)
  let y0 := y - ((j : ℚ) - t)
  let i1 : ℕ := if x0 > y0 then 1 else 0
  let j1 : ℕ := if x0 > y0 then 0 else 1
  let x1 := x0 - (i1 : ℚ) + G2
  let y1 := y0 - (j1 : ℚ) + G2
  let x2 := x0 - 1 + 2 * G2
  let y2 := y0 - 1 + 2 * G2
  let ii := jsAnd255 i
  let jj := jsAnd255 j
  let t0 := 0.5 - x0 * x0 - y0 * y0
  let n0 :=
    if t0 < 0 then 0 else
      let g0 := st.gradP.getD (ii + st.perm.getD jj 0) (0, 0, 0)
      (t0 * t0) * (t0 * t0) * (g0.1 * x0 + g0.2.1 * y0)
  let t1 := 0.5 - x1 * x1 - y1 * y1
  let n1 :=
    if t1 < 0 then 0 else
      let g1 := st.gradP.getD (ii + i1 + st.perm.getD (jj + j1) 0) (0, 0, 0)
      (t1 * t1) * (t1 * t1) * (g1.1 * x1 + g1.2.1 * y1)
  let t2 := 0.5 - x2 * x2 - y2 * y2
  let n2 :=
    if t2 < 0 then 0 else
      let g2 := st.gradP.getD (ii + 1 + st.perm.getD (jj + 1) 0) (0, 0, 0)
      (t2 * t2) * (t2 * t2) * (g2.1 * x2 + g2.2.1 * y2)
  70 * (n0 + n1 + n2)

theorem foldl_set_length {α : Type} (f : ℕ → α) (n : ℕ) (l0 : List α) :
    ((List.range n).foldl (fun l i => l.set i (f i)) l0).length
      = l0.length := by
  induction n with
  | zero => rfl
  | succ n ih =>
    rw [List.range_succ, List.foldl_append, List.foldl_cons, List.foldl_nil,
      List.length_set, ih]

theorem foldl_set_getElem? {α : Type} (f : ℕ → α) (n : ℕ) (l0 : List α)
    (j : ℕ) :
    ((List.range n).foldl (fun l i => l.set i (f i)) l0)[j]?
      = if j < n ∧ j < l0.length then some (f j) else l0[j]? := by
  induction n with
  | zero => simp
  | succ n ih =>
    rw [List.range_succ, List.foldl_append, List.foldl_cons, List.foldl_nil]
    by_cases hj : j = n
    · subst hj
      rw [List.getElem?_set_self', ih, if_neg (by omega)]
      by_cases hl : j < l0.length
      · rw [List.getElem?_eq_getElem hl, if_pos ⟨by omega, hl⟩]
        rfl
      · rw [List.getElem?_eq_none (by omega), if_neg (by omega)]
        rfl
    · rw [List.getElem?_set_ne (fun h => hj h.symm), ih]
      by_cases hc : j < n ∧ j < l0.length
      · rw [if_pos hc, if_pos ⟨by omega, hc.2⟩]
      · rw [if_neg hc, if_neg (by omega)]

theorem noiseSeed_perm_const (s : ℕ) (st1 st2 : NoiseState)
    (h1 : st1.perm.length = 512) (h2 : st2.perm.length = 512) :
    (noiseSeed s st1).perm = (noiseSeed s st2).perm := by
  apply List.ext_getElem?
  intro n
  simp only [noiseSeed]
  rw [foldl_set_getElem?, foldl_set_getElem?, h1, h2]
  by_cases hn : n < 512
  · rw [if_pos ⟨hn, hn⟩, if_pos ⟨hn, hn⟩]
  · rw [if_neg (by omega), if_neg (by omega),
      List.getElem?_eq_none (by omega), List.getElem?_eq_none (by omega)]

theorem noiseSeed_gradP_const (s : ℕ) (st1 st2 : NoiseState)
    (h1 : st1.gradP.length = 512) (h2 : st2.gradP.length = 512) :
    (noiseSeed s st1).gradP = (noiseSeed s st2).gradP := by
  apply List.ext_getElem?
  intro n
  simp only [noiseSeed]
  rw [foldl_set_getElem?, foldl_set_getElem?, h1, h2]
  by_cases hn : n < 512
  · rw [if_pos ⟨hn, hn⟩, if_pos ⟨hn, hn⟩]
  · rw [if_neg (by omega), if_neg (by omega),
      List.getElem?_eq_none (by omega), List.getElem?_eq_none (by omega)]

/-- C3: noise evaluation is deterministic.  `seed(s)` overwrites every
entry of both 512-entry tables with data computed purely from `s`, so the
state after seeding does not depend on the state before it (in
particular not on the random table the module built at load time), and
`noise2D` is a pure function of (x, y), the constants and the tables:
any two runs that seed with the same `s` agree on both tables and on
every subsequent `noise2D(x, y)` value - e.g. `seed(42)` then
`noise2D(1.23, 4.56)` is one fixed value. -/
theorem noise_deterministic (s : ℕ) (st1 st2 : NoiseState)
    (h1p : st1.perm.length = 512) (h1g : st1.gradP.length = 512)
    (h2p : st2.perm.length = 512) (h2g : st2.gradP.length = 512)
    (F2 G2 x y : ℚ) :
    noise2D (noiseSeed s st1) F2 G2 x y = noise2D (noiseSeed s st2) F2 G2 x y
    ∧ (noiseSeed s st1).perm = (noiseSeed s st2).perm
    ∧ (noiseSeed s st1).gradP = (noiseSeed s st2).gradP := by
  have hp := noiseSeed_perm_const s st1 st2 h1p h2p
  have hg := noiseSeed_gradP_const s st1 st2 h1g h2g
  have hstate : noiseSeed s st1 = noiseSeed s st2 := by
    cases e1 : noiseSeed s st1 with
    | mk a b =>
      cases e2 : noiseSeed s st2 with
      | mk a2 b2 =>
        rw [e1, e2] at hp hg
        simp only at hp hg
        rw [hp, hg]
  exact ⟨by rw [hstate], hp, hg⟩

/-- C3 witness helpers: two different pre-seed module states. -/
def noiseStateA : NoiseState :=
  { perm := List.replicate 512 0, gradP := List.replicate 512 (0, 0, 0) }

/-- A second, different pre-seed state. -/
def noiseStateB : NoiseState :=
  { perm := List.replicate 512 7, gradP := List.replicate 512 (1, 2, 3) }

/-- C3 witness: seeding 42 from two different pre-seed states and
evaluating at (1.23, 4.56) agrees, and the regenerated tables agree. -/
theorem noise_deterministic_witness :
    noise2D (noiseSeed 42 noiseStateA) (1/3) (1/6) 1.23 4.56
      = noise2D (noiseSeed 42 noiseStateB) (1/3) (1/6) 1.23 4.56
    ∧ (noiseSeed 42 noiseStateA).perm = (noiseSeed 42 noiseStateB).perm
    ∧ (noiseSeed 42 noiseStateA).gradP = (noiseSeed 42 noiseStateB).gradP :=
  noise_deterministic 42 noiseStateA noiseStateB
    (List.length_replicate 512 0) (List.length_replicate 512 (0, 0, 0))
    (List.length_replicate 512 7) (List.length_replicate 512 (1, 2, 3))
    (1/3) (1/6) 1.23 4.56

end StudioTypo

namespace StudioTypo

/-- A pointwise property holding on every grid cell (coordinates in
[0, N-1]; all array reads are clamped into this range). -/
def GridAll (P : ℚ → Prop) (N : ℕ) (f : Field) : Prop :=
  ∀ i j, i ≤ N - 1 → j ≤ N - 1 → P (f i j)

theorem idxc_le (N i : ℕ) : idxc N i ≤ N - 1 := min_le_left _ _

theorem idxz_le (N : ℕ) (i : ℤ) : idxz N i ≤ N - 1 := by
  unfold idxz
  omega

theorem GridAll.rdF {P : ℚ → Prop} {N : ℕ} {f : Field}
    (h : GridAll P N f) (i j : ℕ) : P (rdF N f i j) :=
  h _ _ (idxc_le N i) (idxc_le N j)

theorem GridAll.rdZ {P : ℚ → Prop} {N : ℕ} {f : Field}
    (h : GridAll P N f) (i j : ℤ) : P (rdZ N f i j) :=
  h _ _ (idxz_le N i) (idxz_le N j)

theorem GridAll.wrF {P : ℚ → Prop} {N : ℕ} {f : Field}
    (h : GridAll P N f) (i j : ℕ) (v : ℚ) (hv : P v) :
    GridAll P N (wrF N f i j v) := by
  intro a b ha hb
  unfold StudioTypo.wrF
  split_ifs
  · exact hv
  · exact h a b ha hb

theorem GridAll.foldl {P : ℚ → Prop} {N : ℕ} {α : Type}
    (l : List α) (F : Field → α → Field)
    (hF : ∀ f a, GridAll P N f → GridAll P N (F f a)) :
    ∀ f, GridAll P N f → GridAll P N (l.foldl F f) := by
  induction l with
  | nil => exact fun f h => h
  | cons a l ih => exact fun f h => ih _ (hF f a h)

theorem setBndEdgesH_pres (P : ℚ → Prop) (b N : ℕ) (hb : b ≠ 2) (f : Field)
    (h : GridAll P N f) : GridAll P N (setBndEdgesH b N f) := by
  intro i j hi hj
  simp only [setBndEdgesH]
  split_ifs <;>
    first
      | exact absurd (by assumption : b = 2) hb
      | exact h.rdF _ _
      | exact h i j hi hj

theorem setBndEdgesV_pres (P : ℚ → Prop) (b N : ℕ) (hb : b ≠ 1) (f : Field)
    (h : GridAll P N f) : GridAll P N (setBndEdgesV b N f) := by
  intro i j hi hj
  simp only [setBndEdgesV]
  split_ifs <;>
    first
      | exact absurd (by assumption : b = 1) hb
      | exact h.rdF _ _
      | exact h i j hi hj

theorem setBndCorners_pres (P : ℚ → Prop) (N : ℕ) (f : Field)
    (havg : ∀ u v, P u → P v → P (0.5 * (u + v)))
    (h : GridAll P N f) : GridAll P N (setBndCorners N f) := by
  intro i j hi hj
  simp only [setBndCorners]
  split_ifs
  · exact havg _ _ (h.rdF 1 0) (h.rdF 0 1)
  · exact havg _ _ (h.rdF 1 (N - 1)) (h.rdF 0 (N - 2))
  · exact havg _ _ (h.rdF (N - 2) 0) (h.rdF (N - 1) 1)
  · exact havg _ _ (h.rdF (N - 2) (N - 1)) (h.rdF (N - 1) (N - 2))
  · exact h i j hi hj

theorem setBnd_zero_pres (P : ℚ → Prop) (N : ℕ) (f : Field)
    (havg : ∀ u v, P u → P v → P (0.5 * (u + v)))
    (h : GridAll P N f) : GridAll P N (setBnd 0 N f) :=
  setBndCorners_pres P N _ havg
    (setBndEdgesV_pres P 0 N (by norm_num) _
      (setBndEdgesH_pres P 0 N (by norm_num) f h))

theorem gsSweep_nonneg (N : ℕ) (x0 : Field) (a cR : ℚ) (f : Field)
    (hx0 : GridAll (fun q => 0 ≤ q) N x0) (ha : 0 ≤ a) (hcR : 0 ≤ cR)
    (hf : GridAll (fun q => 0 ≤ q) N f) :
    GridAll (fun q => 0 ≤ q) N (gsSweep N x0 a cR f) := by
  unfold gsSweep
  refine GridAll.foldl _ _ ?_ f hf
  intro g ij hg
  refine hg.wrF _ _ _ ?_
  refine mul_nonneg (add_nonneg (hx0.rdF _ _) (mul_nonneg ha ?_)) hcR
  have h1 := hg.rdF (ij.1 + 1) ij.2
  have h2 := hg.rdF (ij.1 - 1) ij.2
  have h3 := hg.rdF ij.1 (ij.2 + 1)
  have h4 := hg.rdF ij.1 (ij.2 - 1)
  simp only at h1 h2 h3 h4
  linarith

theorem linSolve_zero_nonneg (N : ℕ) (x x0 : Field) (a c : ℚ)
    (hx : GridAll (fun q => 0 ≤ q) N x)
    (hx0 : GridAll (fun q => 0 ≤ q) N x0) (ha : 0 ≤ a) (hc : 0 ≤ 1 / c) :
    GridAll (fun q => 0 ≤ q) N (linSolve N 0 x x0 a c) := by
  simp only [linSolve]
  refine GridAll.foldl _ _ ?_ x hx
  intro f k hf
  exact setBnd_zero_pres _ N _ (fun u v hu hv => by positivity)
    (gsSweep_nonneg N x0 a (1 / c) f hx0 ha hc hf)

theorem diffuse_zero_nonneg (N : ℕ) (x x0 : Field) (diffc dt : ℚ)
    (hx : GridAll (fun q => 0 ≤ q) N x)
    (hx0 : GridAll (fun q => 0 ≤ q) N x0)
    (hdiff : 0 ≤ diffc) (hdt : 0 ≤ dt) :
    GridAll (fun q => 0 ≤ q) N (diffuse N 0 x x0 diffc dt) := by
  simp only [diffuse]
  have ha : 0 ≤ dt * diffc * (((N : ℚ) - 2) * ((N : ℚ) - 2)) :=
    mul_nonneg (mul_nonneg hdt hdiff) (mul_self_nonneg _)
  refine linSolve_zero_nonneg N x x0 _ _ hx hx0 ha ?_
  have hcpos : 0 < 1 + 6 * (dt * diffc * (((N : ℚ) - 2) * ((N : ℚ) - 2))) := by
    linarith
  positivity

theorem advect_zero_nonneg (N : ℕ) (d d0 vx vy : Field) (dt : ℚ)
    (hd : GridAll (fun q => 0 ≤ q) N d)
    (hd0 : GridAll (fun q => 0 ≤ q) N d0) :
    GridAll (fun q => 0 ≤ q) N (advect N 0 d d0 vx vy dt) := by
  simp only [advect]
  refine setBnd_zero_pres _ N _ (fun u v hu hv => by positivity) ?_
  refine GridAll.foldl _ _ ?_ d hd
  intro g ij hg
  refine hg.wrF _ _ _ ?_
  set xc := max 0.5 (min ((N : ℚ) - 1.5)
    ((ij.1 : ℚ) - dt * ((N : ℚ) - 2) * rdF N vx ij.1 ij.2)) with hxc
  set yc := max 0.5 (min ((N : ℚ) - 1.5)
    ((ij.2 : ℚ) - dt * ((N : ℚ) - 2) * rdF N vy ij.1 ij.2)) with hyc
  have hs1 : (0 : ℚ) ≤ xc - (⌊xc⌋ : ℚ) := by
    have := Int.floor_le xc
    linarith
  have hs0 : (0 : ℚ) ≤ 1 - (xc - (⌊xc⌋ : ℚ)) := by
    have := Int.lt_floor_add_one xc
    linarith
  have ht1 : (0 : ℚ) ≤ yc - (⌊yc⌋ : ℚ) := by
    have := Int.floor_le yc
    linarith
  have ht0 : (0 : ℚ) ≤ 1 - (yc - (⌊yc⌋ : ℚ)) := by
    have := Int.lt_floor_add_one yc
    linarith
  have hA := hd0.rdZ ⌊xc⌋ ⌊yc⌋
  have hB := hd0.rdZ ⌊xc⌋ (⌊yc⌋ + 1)
  have hC := hd0.rdZ (⌊xc⌋ + 1) ⌊yc⌋
  have hD := hd0.rdZ (⌊xc⌋ + 1) (⌊yc⌋ + 1)
  simp only at hA hB hC hD
  have e1 : 0 ≤ (1 - (yc - (⌊yc⌋ : ℚ))) * rdZ N d0 ⌊xc⌋ ⌊yc⌋
      + (yc - (⌊yc⌋ : ℚ)) * rdZ N d0 ⌊xc⌋ (⌊yc⌋ + 1) :=
    add_nonneg (mul_nonneg ht0 hA) (mul_nonneg ht1 hB)
  have e2 : 0 ≤ (1 - (yc - (⌊yc⌋ : ℚ))) * rdZ N d0 (⌊xc⌋ + 1) ⌊yc⌋
      + (yc - (⌊yc⌋ : ℚ)) * rdZ N d0 (⌊xc⌋ + 1) (⌊yc⌋ + 1) :=
    add_nonneg (mul_nonneg ht0 hC) (mul_nonneg ht1 hD)
  exact add_nonneg (mul_nonneg hs0 e1) (mul_nonneg hs1 e2)

end StudioTypo

namespace StudioTypo

theorem step_density_nonneg (s : FluidSolver)
    (hdt : 0 ≤ s.dt) (hdiff : 0 ≤ s.diff)
    (hd : GridAll (fun q => 0 ≤ q) s.size s.density)
    (hdp : GridAll (fun q => 0 ≤ q) s.size s.densityPrev) :
    GridAll (fun q => 0 ≤ q) s.size s.step.density
    ∧ GridAll (fun q => 0 ≤ q) s.size s.step.densityPrev := by
  have hdP1 : GridAll (fun q => 0 ≤ q) s.size
      (diffuse s.size 0 s.densityPrev s.density s.diff s.dt) :=
    diffuse_zero_nonneg _ _ _ _ _ hdp hd hdiff hdt
  constructor
  · simp only [FluidSolver.step]
    exact advect_zero_nonneg _ _ _ _ _ _ hd hdP1
  · simp only [FluidSolver.step]
    exact hdP1

theorem addDensity_density_nonneg (s : FluidSolver) (x y amount : ℚ)
    (hamt : 0 ≤ amount)
    (hd : GridAll (fun q => 0 ≤ q) s.size s.density) :
    GridAll (fun q => 0 ≤ q) s.size (s.addDensity x y amount).density := by
  unfold FluidSolver.addDensity
  split_ifs with h0
  · exact hd
  · intro i j hi hj
    simp only
    split_ifs with hij
    · exact add_nonneg (hd _ _ (idxz_le _ _) (idxz_le _ _)) hamt
    · exact hd i j hi hj

theorem addDensity_preserves (s : FluidSolver) (x y amount : ℚ) :
    (s.addDensity x y amount).size = s.size
    ∧ (s.addDensity x y amount).dt = s.dt
    ∧ (s.addDensity x y amount).diff = s.diff
    ∧ (s.addDensity x y amount).densityPrev = s.densityPrev := by
  unfold FluidSolver.addDensity
  split_ifs <;> exact ⟨rfl, rfl, rfl, rfl⟩

/-- C4, amended: from a state whose density and densityPrev arrays are
both everywhere non-negative (the claim assumed this only of density) and
with non-negative dt and diffusion, any interleaving of `addDensity`
calls with non-negative amounts and `step()` calls keeps every density
cell non-negative - for any number of steps, in particular 1000 or more.
In this exact-rational embedding every value is automatically finite. -/
theorem fluid_density_nonneg (s : FluidSolver) (ops : List FluidOp)
    (hdt : 0 ≤ s.dt) (hdiff : 0 ≤ s.diff)
    (hops : ∀ x y amt, FluidOp.addDensity x y amt ∈ ops → 0 ≤ amt)
    (hd : GridAll (fun q => 0 ≤ q) s.size s.density)
    (hdp : GridAll (fun q => 0 ≤ q) s.size s.densityPrev) :
    GridAll (fun q => 0 ≤ q) (runFluid s ops).size (runFluid s ops).density
    ∧ GridAll (fun q => 0 ≤ q) (runFluid s ops).size
      (runFluid s ops).densityPrev := by
  induction ops generalizing s with
  | nil => exact ⟨hd, hdp⟩
  | cons op rest ih =>
    cases op with
    | addDensity x y amt =>
      have hpre := addDensity_preserves s x y amt
      have hamt : 0 ≤ amt := hops x y amt (List.mem_cons_self _ _)
      simp only [runFluid]
      refine ih (s.addDensity x y amt) ?_ ?_ ?_ ?_ ?_
      · rw [hpre.2.1]; exact hdt
      · rw [hpre.2.2.1]; exact hdiff
      · exact fun a b c hm => hops a b c (List.mem_cons_of_mem _ hm)
      · rw [hpre.1]
        exact addDensity_density_nonneg s x y amt hamt hd
      · rw [hpre.1, hpre.2.2.2]
        exact hdp
    | step =>
      have hstep := step_density_nonneg s hdt hdiff hd hdp
      simp only [runFluid]
      exact ih s.step hdt hdiff
        (fun a b c hm => hops a b c (List.mem_cons_of_mem _ hm))
        hstep.1 hstep.2

/-- C4 witness: the default 3 × 3 solver, one density injection of 5 at
(1,1), then a step: density and densityPrev stay non-negative. -/
theorem fluid_density_nonneg_witness :
    GridAll (fun q => 0 ≤ q)
      (runFluid (mkFluidSolver 3 0.0001 0.0000001)
        [FluidOp.addDensity 1 1 5, FluidOp.step]).size
      (runFluid (mkFluidSolver 3 0.0001 0.0000001)
        [FluidOp.addDensity 1 1 5, FluidOp.step]).density
    ∧ GridAll (fun q => 0 ≤ q)
      (runFluid (mkFluidSolver 3 0.0001 0.0000001)
        [FluidOp.addDensity 1 1 5, FluidOp.step]).size
      (runFluid (mkFluidSolver 3 0.0001 0.0000001)
        [FluidOp.addDensity 1 1 5, FluidOp.step]).densityPrev :=
  fluid_density_nonneg (mkFluidSolver 3 0.0001 0.0000001)
    [FluidOp.addDensity 1 1 5, FluidOp.step]
    (by norm_num [mkFluidSolver])
    (by norm_num [mkFluidSolver])
    (by
      intro x y amt hm
      simp only [List.mem_cons, List.not_mem_nil, or_false] at hm
      rcases hm with h | h
      · obtain ⟨-, -, h3⟩ := FluidOp.addDensity.inj h
        rw [h3]
        norm_num
      · exact absurd h (by simp))
    (by intro i j hi hj; norm_num [mkFluidSolver])
    (by intro i j hi hj; norm_num [mkFluidSolver])

end StudioTypo

namespace StudioTypo

theorem setBnd_zero_three (f : Field) :
    ∀ i j, i ≤ 2 → j ≤ 2 →
      setBnd 0 3 f i j = f 1 1 ∨ setBnd 0 3 f i j = 0.5 * (f 1 1 + f 1 1) := by
  intro i j hi hj
  interval_cases i <;> interval_cases j <;>
    norm_num [setBnd, setBndCorners, setBndEdgesV, setBndEdgesH, rdF, idxc]

theorem setBnd_zero_three_neg (f : Field) (hc : f 1 1 < 0) :
    ∀ i j, i ≤ 2 → j ≤ 2 → setBnd 0 3 f i j < 0 := by
  intro i j hi hj
  rcases setBnd_zero_three f i j hi hj with he | he <;> rw [he]
  · exact hc
  · linarith

theorem convex2_neg (w0 w1 u0 u1 : ℚ) (hw0 : 0 ≤ w0) (hw1 : 0 ≤ w1)
    (hsum : w0 + w1 = 1) (hu0 : u0 < 0) (hu1 : u1 < 0) :
    w0 * u0 + w1 * u1 < 0 := by
  rcases lt_or_eq_of_le hw0 with h | h
  · nlinarith
  · rw [← h, zero_mul, zero_add]
    have hw1' : w1 = 1 := by linarith
    rw [hw1', one_mul]
    exact hu1

theorem gsSweep_three_neg (x0 : Field) (a cR : ℚ) (f : Field)
    (hx0 : ∀ i j, i ≤ 2 → j ≤ 2 → x0 i j ≤ 0) (ha : 0 < a) (hcR : 0 < cR)
    (hf : ∀ i j, i ≤ 2 → j ≤ 2 → f i j < 0) :
    ∀ i j, i ≤ 2 → j ≤ 2 → gsSweep 3 x0 a cR f i j < 0 := by
  intro i j hi hj
  unfold gsSweep
  rw [show interiorCells 3 = [(1, 1)] from by decide]
  simp only [List.foldl_cons, List.foldl_nil]
  unfold wrF rdF
  split_ifs with h
  · have e0 := hx0 _ _ (idxc_le 3 1) (idxc_le 3 1)
    have e1 := hf _ _ (idxc_le 3 (1 + 1)) (idxc_le 3 1)
    have e2 := hf _ _ (idxc_le 3 (1 - 1)) (idxc_le 3 1)
    have e3 := hf _ _ (idxc_le 3 1) (idxc_le 3 (1 + 1))
    have e4 := hf _ _ (idxc_le 3 1) (idxc_le 3 (1 - 1))
    have hsum : f (idxc 3 (1 + 1)) (idxc 3 1) + f (idxc 3 (1 - 1)) (idxc 3 1)
        + f (idxc 3 1) (idxc 3 (1 + 1)) + f (idxc 3 1) (idxc 3 (1 - 1))
        < 0 := by linarith
    have hmul := mul_neg_of_pos_of_neg ha hsum
    exact mul_neg_of_neg_of_pos (by linarith) hcR
  · exact hf i j hi hj

theorem linSolve_three_neg (x x0 : Field) (a c : ℚ)
    (hx : ∀ i j, i ≤ 2 → j ≤ 2 → x i j < 0)
    (hx0 : ∀ i j, i ≤ 2 → j ≤ 2 → x0 i j ≤ 0)
    (ha : 0 < a) (hc : 0 < 1 / c) :
    ∀ i j, i ≤ 2 → j ≤ 2 → linSolve 3 0 x x0 a c i j < 0 := by
  simp only [linSolve]
  have main : ∀ (l : List ℕ) (f : Field),
      (∀ i j, i ≤ 2 → j ≤ 2 → f i j < 0) →
      ∀ i j, i ≤ 2 → j ≤ 2 →
        (l.foldl (fun g _ => setBnd 0 3 (gsSweep 3 x0 a (1 / c) g)) f) i j
          < 0 := by
    intro l
    induction l with
    | nil => exact fun f hf => hf
    | cons k l ih =>
      intro f hf
      simp only [List.foldl_cons]
      refine ih _ ?_
      exact setBnd_zero_three_neg _
        (gsSweep_three_neg x0 a (1 / c) f hx0 ha hc hf 1 1 (by norm_num)
          (by norm_num))
  exact main _ x hx

theorem diffuse_three_neg (x x0 : Field) (diffc dt : ℚ)
    (hx : ∀ i j, i ≤ 2 → j ≤ 2 → x i j < 0)
    (hx0 : ∀ i j, i ≤ 2 → j ≤ 2 → x0 i j ≤ 0)
    (hpos : 0 < dt * diffc) :
    ∀ i j, i ≤ 2 → j ≤ 2 → diffuse 3 0 x x0 diffc dt i j < 0 := by
  simp only [diffuse]
  have ha : 0 < dt * diffc * (((3 : ℚ) - 2) * ((3 : ℚ) - 2)) := by
    rw [show (((3 : ℚ) - 2) * ((3 : ℚ) - 2)) = 1 from by norm_num, mul_one]
    exact hpos
  have hcpos : 0 < 1 / (1 + 6 * (dt * diffc * (((3 : ℚ) - 2) * ((3 : ℚ) - 2))))
      := by
    apply div_pos one_pos
    linarith
  exact linSolve_three_neg x x0 _ _ hx hx0 ha hcpos

theorem advect_three_neg (d d0 vx vy : Field) (dt : ℚ)
    (hd0 : ∀ i j, i ≤ 2 → j ≤ 2 → d0 i j < 0) :
    ∀ i j, i ≤ 2 → j ≤ 2 → advect 3 0 d d0 vx vy dt i j < 0 := by
  simp only [advect]
  rw [show interiorCells 3 = [(1, 1)] from by decide]
  simp only [List.foldl_cons, List.foldl_nil]
  apply setBnd_zero_three_neg
  unfold wrF
  rw [if_pos ⟨rfl, rfl⟩]
  set xc := max 0.5 (min ((3 : ℚ) - 1.5)
    (((1 : ℕ) : ℚ) - dt * ((3 : ℚ) - 2) * rdF 3 vx 1 1)) with hxc
  set yc := max 0.5 (min ((3 : ℚ) - 1.5)
    (((1 : ℕ) : ℚ) - dt * ((3 : ℚ) - 2) * rdF 3 vy 1 1)) with hyc
  have hs1 : (0 : ℚ) ≤ xc - (⌊xc⌋ : ℚ) := by
    have := Int.floor_le xc
    linarith
  have hs0 : (0 : ℚ) ≤ 1 - (xc - (⌊xc⌋ : ℚ)) := by
    have := Int.lt_floor_add_one xc
    linarith
  have ht1 : (0 : ℚ) ≤ yc - (⌊yc⌋ : ℚ) := by
    have := Int.floor_le yc
    linarith
  have ht0 : (0 : ℚ) ≤ 1 - (yc - (⌊yc⌋ : ℚ)) := by
    have := Int.lt_floor_add_one yc
    linarith
  have hA := hd0 _ _ (idxz_le 3 ⌊xc⌋) (idxz_le 3 ⌊yc⌋)
  have hB := hd0 _ _ (idxz_le 3 ⌊xc⌋) (idxz_le 3 (⌊yc⌋ + 1))
  have hC := hd0 _ _ (idxz_le 3 (⌊xc⌋ + 1)) (idxz_le 3 ⌊yc⌋)
  have hD := hd0 _ _ (idxz_le 3 (⌊xc⌋ + 1)) (idxz_le 3 (⌊yc⌋ + 1))
  have e1 : (1 - (yc - (⌊yc⌋ : ℚ))) * rdZ 3 d0 ⌊xc⌋ ⌊yc⌋
      + (yc - (⌊yc⌋ : ℚ)) * rdZ 3 d0 ⌊xc⌋ (⌊yc⌋ + 1) < 0 :=
    convex2_neg _ _ _ _ ht0 ht1 (by ring) hA hB
  have e2 : (1 - (yc - (⌊yc⌋ : ℚ))) * rdZ 3 d0 (⌊xc⌋ + 1) ⌊yc⌋
      + (yc - (⌊yc⌋ : ℚ)) * rdZ 3 d0 (⌊xc⌋ + 1) (⌊yc⌋ + 1) < 0 :=
    convex2_neg _ _ _ _ ht0 ht1 (by ring) hC hD
  exact convex2_neg _ _ _ _ hs0 hs1 (by ring) e1 e2

end StudioTypo

namespace StudioTypo

theorem step_three_neg (s : FluidSolver) (hsize : s.size = 3)
    (hpos : 0 < s.dt * s.diff)
    (hd : ∀ i j, i ≤ 2 → j ≤ 2 → s.density i j ≤ 0)
    (hdp : ∀ i j, i ≤ 2 → j ≤ 2 → s.densityPrev i j < 0) :
    (∀ i j, i ≤ 2 → j ≤ 2 → s.step.density i j < 0)
    ∧ (∀ i j, i ≤ 2 → j ≤ 2 → s.step.densityPrev i j < 0) := by
  have hdP1 : ∀ i j, i ≤ 2 → j ≤ 2 →
      diffuse 3 0 s.densityPrev s.density s.diff s.dt i j < 0 :=
    diffuse_three_neg _ _ _ _ hdp hd hpos
  constructor
  · simp only [FluidSolver.step, hsize]
    exact advect_three_neg _ _ _ _ _ hdP1
  · simp only [FluidSolver.step, hsize]
    exact hdP1

theorem run_steps_three_neg (n : ℕ) (s : FluidSolver) (hsize : s.size = 3)
    (hpos : 0 < s.dt * s.diff)
    (hd : ∀ i j, i ≤ 2 → j ≤ 2 → s.density i j ≤ 0)
    (hdp : ∀ i j, i ≤ 2 → j ≤ 2 → s.densityPrev i j < 0) :
    1 ≤ n → ∀ i j, i ≤ 2 → j ≤ 2 →
      (runFluid s (List.replicate n FluidOp.step)).density i j < 0 := by
  induction n generalizing s with
  | zero => intro h; exact absurd h (by norm_num)
  | succ n ih =>
    intro _
    have hstep := step_three_neg s hsize hpos hd hdp
    have hsize' : s.step.size = 3 := hsize
    have hpos' : 0 < s.step.dt * s.step.diff := hpos
    rw [List.replicate_succ]
    simp only [runFluid]
    rcases Nat.eq_zero_or_pos n with h0 | hn
    · subst h0
      simp only [List.replicate, runFluid]
      exact hstep.1
    · exact ih s.step hsize' hpos'
        (fun i j hi hj => le_of_lt (hstep.1 i j hi hj)) hstep.2 hn

/-- The C4 counterexample state: a fresh default 3 × 3 solver whose
densityPrev array holds -1 everywhere; all six fields are finite and the
density field itself is everywhere 0, hence non-negative. -/
def badSolver : FluidSolver :=
  { mkFluidSolver 3 0.0001 0.0000001 with densityPrev := fun _ _ => -1 }

/-- C4 counterexample: `badSolver` satisfies the claim's hypotheses (all
fields finite, density everywhere non-negative), the operation sequence
is 1000 `step()` calls with no `addDensity` at all, yet the density cell
(1,1) is strictly negative afterwards: the stale negative `densityPrev`
data is drawn into the density by the diffusion solve and advection of
every step. -/
theorem fluid_density_nonneg_cex :
    (∀ i j, 0 ≤ badSolver.density i j)
    ∧ (runFluid badSolver (List.replicate 1000 FluidOp.step)).density 1 1
      < 0 := by
  constructor
  · intro i j
    norm_num [badSolver, mkFluidSolver]
  · exact run_steps_three_neg 1000 badSolver rfl
      (by norm_num [badSolver, mkFluidSolver])
      (fun i j hi hj => by norm_num [badSolver, mkFluidSolver])
      (fun i j hi hj => by norm_num [badSolver, mkFluidSolver])
      (by norm_num) 1 1 (by norm_num) (by norm_num)

end StudioTypo
